import Mathlib

/-!
Verification of the GEDCOM-tools conversion pipeline
(`src/gedcom_tools/converter.py`, `src/gedcom_tools/utils.py`,
`src/gedcom_tools/models.py`, `src/gedcom_tools/enums.py`).

The development is a shallow embedding of the Python code:

* Python `dict`s (which preserve insertion order) are modelled as
  insertion-ordered association lists; `d[k] = v` is `dictInsert`
  (update-in-place for an existing key, append otherwise).
* Python exceptions raised during parsing are modelled by `Except ParseError`,
  where the error constructors follow the specification's taxonomy:
  `ParseError.formatError` for the exceptions raised while reading the two
  header cells (`ValueError` from `int(...)`, `IndexError` from
  `hdr_parts[1]`), and `ParseError.truncatedInput` for the `IndexError`
  raised by `lines[i]` when the declared counts require more lines than
  are available.
* The builtins `str.strip`, `str.split`, `str.splitlines`, `int(...)`,
  `str(...)` and list indexing are modelled character-by-character
  (`pyStrip`, `splitChar`, `pySplitlines`, `pyInt?`, `intStr`, `pyIndex`).
  `pyInt?` covers ASCII numerals with an optional sign and surrounding
  whitespace; exotic forms accepted by CPython (underscore separators,
  non-ASCII digits) are out of scope, and no claim depends on them.
* The two float fields (`f1`, `f2`) of `Person_FTT` / `Couple_FTT` are
  parsed with `_to_float` and stored, but they are never read by
  `build_indexes`, `to_json` or `json_to_gedcom`.  Floating point is outside
  the embedding, so these two write-only fields are omitted from the model;
  no claim mentions them.
-/

/-! ## Python string and number primitives -/

/-- The whitespace characters stripped by Python's `str.strip()` (ASCII part). -/
def isPyWs (c : Char) : Bool :=
  c = ' ' ∨ c = '\t' ∨ c = '\n' ∨ c = '\x0d' ∨ c = '\x0b' ∨ c = '\x0c'

/-- Python `s.strip()`: drop leading and trailing whitespace. -/
def pyStrip (s : String) : String :=
  String.mk (((s.data.dropWhile isPyWs).reverse.dropWhile isPyWs).reverse)

/-- Auxiliary for `splitChar`. -/
def splitCharAux (sep : Char) : List Char → List Char → List String
  | [], acc => [String.mk acc.reverse]
  | c :: rest, acc =>
      if c = sep then String.mk acc.reverse :: splitCharAux sep rest []
      else splitCharAux sep rest (c :: acc)

/-- Python `s.split(sep)` for a one-character separator, e.g. `s.split("\t")`.
`"".split("\t") = [""]` and empty chunks are kept, as in Python. -/
def splitChar (sep : Char) (s : String) : List String :=
  splitCharAux sep s.data []

/-- Auxiliary for `pySplitlines`. -/
def splitlinesAux : List Char → List Char → List String
  | [], acc => if acc.isEmpty then [] else [String.mk acc.reverse]
  | '\x0d' :: '\n' :: rest, acc => String.mk acc.reverse :: splitlinesAux rest []
  | '\x0d' :: rest, acc => String.mk acc.reverse :: splitlinesAux rest []
  | '\n' :: rest, acc => String.mk acc.reverse :: splitlinesAux rest []
  | c :: rest, acc => splitlinesAux rest (c :: acc)

/-- Python `s.splitlines()` for the line terminators `\n`, `\r`, `\r\n`
(no entry for a trailing terminator, exactly as in Python). -/
def pySplitlines (s : String) : List String :=
  splitlinesAux s.data []

/-- Python `s.lstrip("﻿")`: drop every leading byte-order mark. -/
def stripBOM (s : String) : String :=
  String.mk (s.data.dropWhile (fun c => c = '﻿'))

/-- Auxiliary: read a base-10 numeral; `none` if any character is not a digit. -/
def parseDigitsAux : List Char → Nat → Option Nat
  | [], acc => some acc
  | c :: cs, acc =>
      if c.isDigit then parseDigitsAux cs (acc * 10 + (c.toNat - 48)) else none

/-- A non-empty all-digit run, as required after the optional sign in `int(...)`. -/
def parseDigits : List Char → Option Nat
  | [] => none
  | cs => parseDigitsAux cs 0

/-- Python `int(s)` as a partial function: optional surrounding whitespace,
optional single sign, then a non-empty digit run.  `none` models the
`ValueError` raised by CPython on any other input. -/
def pyInt? (s : String) : Option Int :=
  match (pyStrip s).data with
  | '+' :: ds => (parseDigits ds).map (fun n => (n : Int))
  | '-' :: ds => (parseDigits ds).map (fun n => -(n : Int))
  | ds => (parseDigits ds).map (fun n => (n : Int))

/-- Digits of a positive number, most significant first (auxiliary for
`natStr`).  The first argument is fuel, always sufficient because a number
has at most as many decimal digits as its own value; fuel keeps the
recursion structural so that the kernel can evaluate it. -/
def natStrGo : Nat → Nat → List Char → List Char
  | 0, _, acc => acc
  | fuel + 1, n, acc =>
      if n = 0 then acc else natStrGo fuel (n / 10) (Char.ofNat (48 + n % 10) :: acc)

/-- Python `str(n)` for a natural number. -/
def natStr (n : Nat) : String :=
  if n = 0 then "0" else String.mk (natStrGo n n [])

/-- Python `str(i)` for an integer. -/
def intStr (i : Int) : String :=
  if i < 0 then "-" ++ natStr (-i).toNat else natStr i.toNat

/-- Python list indexing `xs[i]`: negative indices count from the end,
`none` models `IndexError`. -/
def pyIndex {α : Type} (xs : List α) (i : Int) : Option α :=
  let j : Int := if i < 0 then (xs.length : Int) + i else i
  if j < 0 then none else xs.get? j.toNat

/-- Auxiliary for `intRange`: `m` consecutive integers from `start`. -/
def intRangeGo (start : Int) : Nat → List Int
  | 0 => []
  | m + 1 => start :: intRangeGo (start + 1) m

/-- The index list of Python `range(start, start + n)` for an integer start
and a (possibly non-positive, hence empty) integer count. -/
def intRange (start n : Int) : List Int :=
  intRangeGo start n.toNat

/-! ## Python `dict` as an insertion-ordered association list -/

/-- Python `d[k] = v`: overwrite in place if the key exists (keeping its
position, as CPython dicts do), else append at the end. -/
def dictInsert {α : Type} (m : List (Int × α)) (k : Int) (v : α) : List (Int × α) :=
  if m.any (fun kv => kv.1 = k) then
    m.map (fun kv => if kv.1 = k then (k, v) else kv)
  else m ++ [(k, v)]

/-- Python `k in d`. -/
def hasKey {α : Type} (m : List (Int × α)) (k : Int) : Bool :=
  m.any (fun kv => kv.1 = k)

/-- Python `d.get(k, dflt)` / `d[k]` with a default for totality. -/
def dictGetD {α : Type} (m : List (Int × α)) (k : Int) (dflt : α) : α :=
  match m.find? (fun kv => kv.1 = k) with
  | some kv => kv.2
  | none => dflt

/-! ## Field coercion (`src/gedcom_tools/utils.py`) -/

/-- `utils._to_int(x, _None_is_0, _0_is_None)`.  The two flags are passed
positionally; the callers in `converter.py` never set both (the code would
raise `ValueError` for that caller error, a case no call site reaches). -/
def _to_int (x : String) (none_is_0 zero_is_none : Bool) : Option Int :=
  match pyInt? x with
  | none => if none_is_0 then some 0 else none
  | some v => if zero_is_none ∧ v = 0 then none else some v

/-! ## Domain model (`src/gedcom_tools/models.py`) -/

/-- `models.Person_FTT` (the float fields `f1`, `f2` are omitted, see the
header comment; everything else is verbatim). -/
structure Person where
  id : Int
  reserved : Int
  parent_couple_id : Option Int
  unk4 : Int
  unk5 : Int
  unk6 : Int
  unk9 : Int
  unk10 : Int
  unk11 : Int
  unk12 : Int
  surname : String
  name : String
  tab_unk1 : String
  tab_unk2 : String
  birth_event : Int
  birth_year : Option Int
  birth_month : Option Int
  birth_day : Option Int
  death_event : Int
  death_year : Option Int
  death_month : Option Int
  death_day : Option Int
  sex : Int
  addition : Option String
  tab_unk3 : String
  tab_unk4 : String
  note : Option String
deriving DecidableEq

/-- `models.Couple_FTT` (float fields omitted as above). -/
structure Couple where
  id : Int
  divorce : Int
  male_id : Option Int
  unk4 : Int
  female_id : Option Int
  unk6 : Int
  unk9 : Int
  unk10 : Int
  unk11 : Int
  unk12 : Int
deriving DecidableEq

/-! ## Record parser (`converter.parse_node_ftt`) -/

/-- The error taxonomy of the specification; see the header comment for the
correspondence with the Python exceptions. -/
inductive ParseError where
  | formatError
  | truncatedInput
deriving DecidableEq

/-- Python `s.strip() or None` for the optional text fields. -/
def stripOrNone (s : String) : Option String :=
  let t := pyStrip s
  if t = "" then none else some t

/-- Right-pad a cell list to `n` cells with `fill`, as the parser does for
short person (fill `""`) and couple (fill `"0"`) lines. -/
def padTo (n : Nat) (fill : String) (xs : List String) : List String :=
  xs ++ List.replicate (n - xs.length) fill

/-- One person line of `parse_node_ftt`: split on tab, pad to 29 cells, and
map each positional cell to its `Person_FTT` attribute exactly as the
constructor call in `converter.py` lines 60-91 does.  (Note that the
constructor maps cells 26 and 27 to `tab_unk3` / `tab_unk4` and cell 28 to
`note`, while the function's own docstring declares `26:note 27:tab_unk3
28:tab_unk4`.) -/
def parsePersonLine (line : String) : Person :=
  let parts := padTo 29 "" (splitChar '\t' line)
  let cell := fun i => parts.getD i ""
  { id := (_to_int (cell 0) true false).getD 0
    reserved := (_to_int (cell 1) true false).getD 0
    parent_couple_id := _to_int (cell 2) false false
    unk4 := (_to_int (cell 3) true false).getD 0
    unk5 := (_to_int (cell 4) true false).getD 0
    unk6 := (_to_int (cell 5) true false).getD 0
    unk9 := (_to_int (cell 8) true false).getD 0
    unk10 := (_to_int (cell 9) true false).getD 0
    unk11 := (_to_int (cell 10) true false).getD 0
    unk12 := (_to_int (cell 11) true false).getD 0
    surname := pyStrip (cell 12)
    name := pyStrip (cell 13)
    tab_unk1 := cell 14
    tab_unk2 := cell 15
    birth_event := (_to_int (cell 16) true false).getD 0
    birth_year := _to_int (cell 17) false true
    birth_month := _to_int (cell 18) false true
    birth_day := _to_int (cell 19) false true
    death_event := (_to_int (cell 20) true false).getD 0
    death_year := _to_int (cell 21) false true
    death_month := _to_int (cell 22) false true
    death_day := _to_int (cell 23) false true
    sex := (_to_int (cell 24) true false).getD 0
    addition := stripOrNone (cell 25)
    tab_unk3 := cell 26
    tab_unk4 := cell 27
    note := stripOrNone (cell 28) }

/-- One couple line of `parse_node_ftt` (converter.py lines 97-115). -/
def parseCoupleLine (line : String) : Couple :=
  let parts := padTo 12 "0" (splitChar '\t' line)
  let cell := fun i => parts.getD i "0"
  { id := (_to_int (cell 0) true false).getD 0
    divorce := (_to_int (cell 1) true false).getD 0
    male_id := _to_int (cell 2) false false
    unk4 := (_to_int (cell 3) true false).getD 0
    female_id := _to_int (cell 4) false false
    unk6 := (_to_int (cell 5) true false).getD 0
    unk9 := (_to_int (cell 8) true false).getD 0
    unk10 := (_to_int (cell 9) true false).getD 0
    unk11 := (_to_int (cell 10) true false).getD 0
    unk12 := (_to_int (cell 11) true false).getD 0 }

/-- The two header integers `int(hdr_parts[0].lstrip("﻿"))` and
`int(hdr_parts[1])`.  `none` models the exceptions raised there
(`ValueError`, or `IndexError` when the header has a single cell). -/
def parseHeader (headerLine : String) : Option (Int × Int) :=
  let hdr_parts := splitChar '\t' headerLine
  match pyInt? (stripBOM (hdr_parts.headD "")) with
  | none => none
  | some n_people =>
      match hdr_parts.get? 1 with
      | none => none
      | some c1 =>
          match pyInt? c1 with
          | none => none
          | some n_couples => some (n_people, n_couples)

/-- The person loop of `parse_node_ftt`: read `lines[i]` for each index of
`range(1, 1 + n_people)`, failing with `truncatedInput` (Python: an
uncaught `IndexError`) on the first out-of-range access. -/
def parsePeopleAux (lines : List String) :
    List Int → List (Int × Person) → Except ParseError (List (Int × Person))
  | [], acc => .ok acc
  | i :: is, acc =>
      match pyIndex lines i with
      | none => .error .truncatedInput
      | some ln =>
          let p := parsePersonLine ln
          parsePeopleAux lines is (dictInsert acc p.id p)

/-- The couple loop of `parse_node_ftt`, analogous to `parsePeopleAux`. -/
def parseCouplesAux (lines : List String) :
    List Int → List (Int × Couple) → Except ParseError (List (Int × Couple))
  | [], acc => .ok acc
  | i :: is, acc =>
      match pyIndex lines i with
      | none => .error .truncatedInput
      | some ln =>
          let c := parseCoupleLine ln
          parseCouplesAux lines is (dictInsert acc c.id c)

/-- The non-blank lines the parser works on: `[ln for ln in text.splitlines() if ln.strip()]`. -/
def nonBlankLines (text : String) : List String :=
  (pySplitlines text).filter (fun ln => ¬ pyStrip ln = "")

/-- `converter.parse_node_ftt` (lines 28-118). -/
def parse_node_ftt (text : String) :
    Except ParseError (List (Int × Person) × List (Int × Couple)) :=
  let lines := nonBlankLines text
  if lines.isEmpty then .ok ([], []) else
  match parseHeader (lines.headD "") with
  | none => .error .formatError
  | some (n_people, n_couples) =>
      match parsePeopleAux lines (intRange 1 n_people) [] with
      | .error e => .error e
      | .ok people =>
          match parseCouplesAux lines (intRange (1 + n_people) n_couples) [] with
          | .error e => .error e
          | .ok couples => .ok (people, couples)

deriving instance DecidableEq for Except

/-! ## Relationship indexer (`converter.build_indexes`) -/

/-- Append `v` to the list stored under every entry whose key is `k`
(Python `children_of_couple[k].append(v)`; with the unique keys of a dict
exactly one entry matches). -/
def appendAt (m : List (Int × List Int)) (k : Int) (v : Int) : List (Int × List Int) :=
  m.map (fun kv => if kv.1 = k then (kv.1, kv.2 ++ [v]) else kv)

/-- One step of the people loop of `build_indexes`:
`if p.parent_couple_id and p.parent_couple_id in couples_by_id:
children_of_couple[p.parent_couple_id].append(p.id)`. -/
def childStep (couples_by_id : List (Int × Couple))
    (acc : List (Int × List Int)) (kv : Int × Person) : List (Int × List Int) :=
  let p := kv.2
  match p.parent_couple_id with
  | some pc => if pc ≠ 0 ∧ hasKey couples_by_id pc then appendAt acc pc p.id else acc
  | none => acc

/-- One iteration of the inner role loop of `build_indexes`'s couple loop:
`if person_id and person_id in couples_of_person:
couples_of_person[person_id].append(c.id)`. -/
def roleStep (acc : List (Int × List Int)) (person_id : Option Int) (cid : Int) :
    List (Int × List Int) :=
  match person_id with
  | some m => if m ≠ 0 ∧ hasKey acc m then appendAt acc m cid else acc
  | none => acc

/-- One step of the couple loop of `build_indexes`:
`for person_id in (c.male_id, c.female_id): ...` — the male role first,
then the female role, each an application of `roleStep`. -/
def spouseStep (acc : List (Int × List Int)) (kv : Int × Couple) : List (Int × List Int) :=
  roleStep (roleStep acc kv.2.male_id kv.2.id) kv.2.female_id kv.2.id

/-- `converter.build_indexes` (lines 123-158): reverse indices
`children_of_couple` and `couples_of_person`, built by iterating the two
dicts in their (insertion) order. -/
def build_indexes (people_by_id : List (Int × Person)) (couples_by_id : List (Int × Couple)) :
    List (Int × List Int) × List (Int × List Int) :=
  let children_of_couple :=
    people_by_id.foldl (childStep couples_by_id)
      (couples_by_id.map (fun kv => (kv.1, ([] : List Int))))
  let couples_of_person :=
    couples_by_id.foldl spouseStep
      (people_by_id.map (fun kv => (kv.1, ([] : List Int))))
  (children_of_couple, couples_of_person)

/-! ## GEDCOM formatting helpers (`src/gedcom_tools/utils.py`) -/

/-- `utils.GED_MONTHS`: the twelve-entry month table with a `None` guard at
index 0.  NOTE: in `utils.py` the entries are mixed-case ("Jan", ...,
"Dec"); the older in-repo implementation `src/main.py` uses the uppercase
table ("JAN", ..., "DEC"). -/
def GED_MONTHS : List (Option String) :=
  [none, some "Jan", some "Feb", some "Mar", some "Apr", some "May", some "Jun",
   some "Jul", some "Aug", some "Sep", some "Oct", some "Nov", some "Dec"]

/-- `utils.fmt_ged_date` (lines 52-63). -/
def fmt_ged_date (y m d : Option Int) : Option String :=
  match y with
  | none => none
  | some y =>
      match m with
      | none => some (intStr y)
      | some m =>
          match (if 1 ≤ m ∧ m ≤ 12 then GED_MONTHS.getD m.toNat none else none) with
          | none => some (intStr y)
          | some mon =>
              match d with
              | none => some (mon ++ " " ++ intStr y)
              | some d => some (intStr d ++ " " ++ mon ++ " " ++ intStr y)

/-- `utils.sex_to_ged`. -/
def sex_to_ged (sex_code : Int) : String :=
  if sex_code = 1 then "M" else if sex_code = 2 then "F" else "U"

example : fmt_ged_date (some 1900) none none = some "1900" := by decide
example : fmt_ged_date (some 1900) (some 5) none = some "May 1900" := by decide
example : fmt_ged_date (some 1900) (some 5) (some 3) = some "3 May 1900" := by decide
example : fmt_ged_date none (some 5) (some 3) = none := by decide
example : fmt_ged_date (some 1900) (some 13) (some 3) = some "1900" := by decide

/-! ## Nested documents

The values stored in the nested GEDCOM document built by `to_json` are
strings, dicts and lists (no other Python type is ever inserted), so the
document type is: -/

inductive JVal where
  | str (s : String)
  | obj (fields : List (String × JVal))
  | list (elems : List JVal)

/-- Python `v == ""`: true exactly for the empty string (a dict or list never
equals `""`). -/
def isEmptyStr : JVal → Bool
  | .str s => s = ""
  | _ => false

mutual

/-- Python `repr` of a document value (single-quote form for strings), used
only through `pyStrJ` when an f-string interpolates a non-string value. -/
def pyReprJ : JVal → String
  | .str s => "'" ++ s ++ "'"
  | .obj fields => "\x7b" ++ pyReprFields fields ++ "\x7d"
  | .list xs => "[" ++ pyReprElems xs ++ "]"

def pyReprFields : List (String × JVal) → String
  | [] => ""
  | [(k, v)] => "'" ++ k ++ "': " ++ pyReprJ v
  | (k, v) :: rest => "'" ++ k ++ "': " ++ pyReprJ v ++ ", " ++ pyReprFields rest

def pyReprElems : List JVal → String
  | [] => ""
  | [v] => pyReprJ v
  | v :: rest => pyReprJ v ++ ", " ++ pyReprElems rest

end

/-- Python `str` of a document value, as interpolated by an f-string. -/
def pyStrJ : JVal → String
  | .str s => s
  | v => pyReprJ v

mutual

/-- `utils.remove_empty_strings` (lines 26-44).  The dict branch deletes the
keys bound to `""` and recurses into the remaining values; deleting after
the loop (as the Python does) never reorders the surviving keys, so it
coincides with filtering first. -/
def remove_empty_strings : JVal → JVal
  | .str s => .str s
  | .obj fields => .obj (removeFieldsAux fields)
  | .list xs => .list (removeElemsAux xs)

def removeFieldsAux : List (String × JVal) → List (String × JVal)
  | [] => []
  | (k, v) :: rest =>
      if isEmptyStr v then removeFieldsAux rest
      else (k, remove_empty_strings v) :: removeFieldsAux rest

def removeElemsAux : List JVal → List JVal
  | [] => []
  | x :: xs => remove_empty_strings x :: removeElemsAux xs

end

mutual

/-- Observer: no empty string occurs anywhere in the document, whether as a
dict-field value or as a list element. -/
def noEmptyAnywhere : JVal → Bool
  | .str s => ¬ s = ""
  | .obj fields => noEmptyAnywhereFields fields
  | .list xs => noEmptyAnywhereElems xs

def noEmptyAnywhereFields : List (String × JVal) → Bool
  | [] => true
  | (_, v) :: rest => noEmptyAnywhere v && noEmptyAnywhereFields rest

def noEmptyAnywhereElems : List JVal → Bool
  | [] => true
  | x :: xs => noEmptyAnywhere x && noEmptyAnywhereElems xs

end

mutual

/-- Observer: no dict field anywhere in the document holds the empty string. -/
def noEmptyField : JVal → Bool
  | .str _ => true
  | .obj fields => noEmptyFieldFields fields
  | .list xs => noEmptyFieldElems xs

def noEmptyFieldFields : List (String × JVal) → Bool
  | [] => true
  | (_, v) :: rest => !isEmptyStr v && noEmptyField v && noEmptyFieldFields rest

def noEmptyFieldElems : List JVal → Bool
  | [] => true
  | x :: xs => noEmptyField x && noEmptyFieldElems xs

end

/-- Lookup of the first field with the given tag in a document object
(Python `node[tag]` on the dicts built by `to_json`, whose keys are unique). -/
def lookupTag (j : JVal) (tag : String) : Option JVal :=
  match j with
  | .obj fields => (fields.find? (fun kv => kv.1 = tag)).map (fun kv => kv.2)
  | _ => none

/-! ## Document builder (`converter.to_json`, lines 164-291)

`to_json` reads the clock (`datetime.now()`) to fill the header's
generation date and time; the embedding makes that environmental input an
explicit pair of string parameters `head_date`, `head_time`. -/

/-- Modelled from the spec: the package version string
(`gedcom_tools.__version__`; the defining `__init__.py` is not under
`src/`).  An opaque constant reported in the header's `SOUR.VERS` field;
its concrete value is immaterial to every claim. -/
def gedcomToolsVersion : String := "0.1.0"

/-- Insert into a sorted list (auxiliary for `sortInts`). -/
def insSorted (x : Int) : List Int → List Int
  | [] => [x]
  | y :: ys => if x ≤ y then x :: y :: ys else y :: insSorted x ys

/-- Python `sorted(keys)` for integer keys. -/
def sortInts (l : List Int) : List Int :=
  l.foldr insSorted []

/-- Python `f"{n:04d}"` for a non-negative index: zero-pad to width four,
grown as needed beyond four digits. -/
def zpad4 (n : Nat) : String :=
  let s := natStr n
  String.mk (List.replicate (4 - s.length) '0') ++ s

/-- Fallback values for the total model of `people_by_id[person_id]` /
`couples_by_id[couple_id]`; never reached, because `to_json` looks up
exactly the keys of the dict it iterates. -/
def dummyPerson : Person :=
  { id := 0, reserved := 0, parent_couple_id := none, unk4 := 0, unk5 := 0, unk6 := 0,
    unk9 := 0, unk10 := 0, unk11 := 0, unk12 := 0, surname := "", name := "",
    tab_unk1 := "", tab_unk2 := "", birth_event := 0, birth_year := none,
    birth_month := none, birth_day := none, death_event := 0, death_year := none,
    death_month := none, death_day := none, sex := 0, addition := none,
    tab_unk3 := "", tab_unk4 := "", note := none }

/-- See `dummyPerson`. -/
def dummyCouple : Couple :=
  { id := 0, divorce := 0, male_id := none, unk4 := 0, female_id := none,
    unk6 := 0, unk9 := 0, unk10 := 0, unk11 := 0, unk12 := 0 }

/-- Truthiness of an optional string (Python: `None` and `""` are falsy). -/
def optStrTruthy : Option String → Bool
  | none => false
  | some s => ¬ s = ""

/-- The `FAMC` sub-nodes of an individual record (converter.py lines 244-249). -/
def famcEntry (p : Person) (fam_ptr : List (Int × String)) : List JVal :=
  match p.parent_couple_id with
  | some pc =>
      if pc ≠ 0 ∧ hasKey fam_ptr pc then
        [.obj [("_PREF", .str (dictGetD fam_ptr pc "")), ("PEDI", .str "BIRTH")]]
      else []
  | none => []

/-- The `FAMS` sub-nodes of an individual record (lines 252-256). -/
def famsEntry (pid : Int) (fam_ptr : List (Int × String))
    (couples_of_person : List (Int × List Int)) : List JVal :=
  (dictGetD couples_of_person pid []).map
    (fun cid => JVal.obj [("_PREF", .str (dictGetD fam_ptr cid ""))])

/-- The conditional `BIRT` field (lines 234-236):
`if p.birth_event and bdate: node[T.BIRTH] = {T.DATE: bdate}`. -/
def birthEntry (p : Person) : List (String × JVal) :=
  match fmt_ged_date p.birth_year p.birth_month p.birth_day with
  | some s => if p.birth_event ≠ 0 ∧ ¬ s = "" then [("BIRT", .obj [("DATE", .str s)])] else []
  | none => []

/-- The conditional `DEAT` field (lines 239-241):
`if p.death_event and (ddate or p.death_event == 128):
node[T.DEATH] = {T.DATE: ddate} if ddate else "Y"`. -/
def deathEntry (p : Person) : List (String × JVal) :=
  match fmt_ged_date p.death_year p.death_month p.death_day with
  | some s =>
      if p.death_event ≠ 0 ∧ (¬ s = "" ∨ p.death_event = 128) then
        [("DEAT", if s = "" then JVal.str "Y" else .obj [("DATE", .str s)])]
      else []
  | none => if p.death_event ≠ 0 ∧ p.death_event = 128 then [("DEAT", .str "Y")] else []

/-- The conditional `NOTE` field (lines 259-261):
`note_text = p.note or p.addition; if note_text: node[T.NOTE] = note_text`. -/
def noteEntry (p : Person) : List (String × JVal) :=
  match (if optStrTruthy p.note then p.note else p.addition) with
  | some s => if ¬ s = "" then [("NOTE", .str s)] else []
  | none => []

/-- One individual record of the `INDI` list (loop body, lines 218-263).
The `BIRT`, `DEAT` and `NOTE` keys are inserted after the literal keys of
the node, hence appear after `FAMS` in the dict's insertion order. -/
def indiRecord (p : Person) (pid : Int) (indi_ptr fam_ptr : List (Int × String))
    (couples_of_person : List (Int × List Int)) : JVal :=
  .obj ([("_PDEF", .str (dictGetD indi_ptr pid "")),
         ("NAME", .obj [("_NAME", .str (p.name ++ " /" ++ p.surname ++ "/")),
                        ("GIVN", .str p.name),
                        ("SURN", .str p.surname)]),
         ("SEX", .str (sex_to_ged p.sex)),
         ("FAMC", .list (famcEntry p fam_ptr)),
         ("FAMS", .list (famsEntry pid fam_ptr couples_of_person))]
        ++ birthEntry p ++ deathEntry p ++ noteEntry p)

/-- One family record of the `FAM` list (loop body, lines 266-285). -/
def famRecord (c : Couple) (cid : Int) (indi_ptr fam_ptr : List (Int × String))
    (children_of_couple : List (Int × List Int)) : JVal :=
  .obj ([("_PDEF", JVal.str (dictGetD fam_ptr cid ""))]
    ++ (match c.male_id with
        | some m =>
            if m ≠ 0 ∧ hasKey indi_ptr m then [("HUSB", JVal.str (dictGetD indi_ptr m ""))]
            else []
        | none => [])
    ++ (match c.female_id with
        | some f =>
            if f ≠ 0 ∧ hasKey indi_ptr f then [("WIFE", JVal.str (dictGetD indi_ptr f ""))]
            else []
        | none => [])
    ++ (let kids := dictGetD children_of_couple cid []
        if ¬ kids = [] then
          [("CHIL", JVal.list (kids.map (fun k => JVal.str (dictGetD indi_ptr k ""))))]
        else [])
    ++ (if c.divorce = 1 then [("DIV", JVal.str "Y")] else []))

/-- The `HEAD` block (lines 177-194). -/
def headBlock (lang head_date head_time : String) : JVal :=
  .obj [("GEDC", .obj [("VERS", .str "5.5.1"), ("FORM", .str "LINEAGE-LINKED")]),
        ("CHAR", .str "UTF-8"),
        ("SOUR", .obj [("_NAME", .str "GT"), ("NAME", .str "Gedcom Tools"),
                       ("VERS", .str gedcomToolsVersion)]),
        ("DATE", .obj [("_NAME", .str head_date), ("TIME", .str head_time)]),
        ("LANG", .str lang),
        ("SUBM", .str "@U1@")]

/-- `converter.to_json` (lines 164-291): the five top-level entries in
insertion order, individuals and families in ascending-key order with
sequentially numbered pointers, finished by the empty-string pruning. -/
def to_json (people_by_id : List (Int × Person)) (couples_by_id : List (Int × Couple))
    (lang head_date head_time : String) : JVal :=
  let person_ids := sortInts (people_by_id.map (fun kv => kv.1))
  let couple_ids := sortInts (couples_by_id.map (fun kv => kv.1))
  let indi_ptr := person_ids.enum.map (fun ip => (ip.2, "@I" ++ zpad4 ip.1 ++ "@"))
  let fam_ptr := couple_ids.enum.map (fun ip => (ip.2, "@F" ++ zpad4 ip.1 ++ "@"))
  let idx := build_indexes people_by_id couples_by_id
  remove_empty_strings (JVal.obj
    [("HEAD", headBlock lang head_date head_time),
     ("SUBM", .obj [("_PDEF", .str "@U1@"), ("NAME", .str "Tester")]),
     ("INDI", .list (person_ids.map (fun pid =>
         indiRecord (dictGetD people_by_id pid dummyPerson) pid indi_ptr fam_ptr idx.2))),
     ("FAM", .list (couple_ids.map (fun cid =>
         famRecord (dictGetD couples_by_id cid dummyCouple) cid indi_ptr fam_ptr idx.1))),
     ("TRLR", .obj [])])

/-! ## Line linearizer (`converter.json_to_gedcom`, lines 293-365) -/

/-- Auxiliary for `splitFirstSpace`. -/
def splitFirstSpaceAux : List Char → Option (List Char × List Char)
  | [] => none
  | c :: cs =>
      if c = ' ' then some ([], cs)
      else (splitFirstSpaceAux cs).map (fun ab => (c :: ab.1, ab.2))

/-- Python `s.split(" ", 1)` unpacked into exactly two names: `none` models
the `ValueError` raised when the string holds no space. -/
def splitFirstSpace (s : String) : Option (String × String) :=
  (splitFirstSpaceAux s.data).map (fun ab => (String.mk ab.1, String.mk ab.2))

/-- The `_PDEF` patch (lines 316-321): rewrite the most recently emitted
line from `"<level> <tag>"` to `"<level> <value> <tag>"`.  `none` models the
`IndexError` on an empty line list or the `ValueError` from the unpacking. -/
def patchPdef (lines : List String) (value : String) : Option (List String) :=
  match lines.getLast? with
  | none => none
  | some last =>
      match splitFirstSpace last with
      | none => none
      | some (prev_level_str, prev_tag) =>
          some (lines.dropLast ++ [prev_level_str ++ " " ++ value ++ " " ++ prev_tag])

/-- The `_PREF` / `_NAME` patch (lines 325-330): rewrite the most recently
emitted line from `"<level> <tag>"` to `"<level> <tag> <value>"`. -/
def patchPref (lines : List String) (value : String) : Option (List String) :=
  match lines.getLast? with
  | none => none
  | some last =>
      match splitFirstSpace last with
      | none => none
      | some (prev_level_str, prev_tag) =>
          some (lines.dropLast ++ [prev_level_str ++ " " ++ prev_tag ++ " " ++ value])

/-- Python `f"{level} {tag}"`. -/
def lineOf (level : Nat) (tag : String) : String :=
  natStr level ++ " " ++ tag

mutual

/-- Dispatch on the value of one non-pseudo item of a dict node (CASE A1:
a dict value opens a nested block at `level + 1`; A2: a list value is
handled element-wise; A3: a plain value becomes one `"<level> <tag>
<value>"` line). -/
def walkValue : JVal → String → Nat → List String → Option (List String)
  | .obj fs, tag, level, lines => walkFields fs (level + 1) (lines ++ [lineOf level tag])
  | .list xs, tag, level, lines => walkItems xs tag level lines
  | .str s, tag, level, lines => some (lines ++ [lineOf level tag ++ " " ++ s])

/-- One element of a list value (inside CASE A2): a dict element becomes its
own block at the current level, any other element its own value line. -/
def walkItem : JVal → String → Nat → List String → Option (List String)
  | .obj fs, tag, level, lines => walkFields fs (level + 1) (lines ++ [lineOf level tag])
  | item, tag, level, lines => some (lines ++ [lineOf level tag ++ " " ++ pyStrJ item])

/-- The dict branch of `walk` (CASE A): process the items of a node in
order, threading the emitted line list; `none` propagates a patch failure.
The two pseudo-tag branches (A01/A02) patch the previous line and emit
nothing themselves. -/
def walkFields : List (String × JVal) → Nat → List String → Option (List String)
  | [], _, lines => some lines
  | (tag, value) :: rest, level, lines =>
      if tag = "_PDEF" then
        match patchPdef lines (pyStrJ value) with
        | none => none
        | some ls => walkFields rest level ls
      else if tag = "_PREF" ∨ tag = "_NAME" then
        match patchPref lines (pyStrJ value) with
        | none => none
        | some ls => walkFields rest level ls
      else
        match walkValue value tag level lines with
        | none => none
        | some ls => walkFields rest level ls

/-- The elements of a list value, in order. -/
def walkItems : List JVal → String → Nat → List String → Option (List String)
  | [], _, _, lines => some lines
  | item :: more, tag, level, lines =>
      match walkItem item tag level lines with
      | none => none
      | some ls => walkItems more tag level ls

end

/-- The flat line sequence emitted by `json_to_gedcom`'s `walk(data, 0)`
(a non-dict root emits nothing, as the `else: pass` branch does). -/
def gedcomLines (data : JVal) : Option (List String) :=
  match data with
  | .obj fields => walkFields fields 0 []
  | _ => some []

/-- `converter.json_to_gedcom` (lines 293-365): the emitted lines joined by
`"\n".join(lines) + "\n"`. -/
def json_to_gedcom (data : JVal) : Option String :=
  (gedcomLines data).map (fun lines => String.intercalate "\n" lines ++ "\n")

/-- `"_PDEF"`, `"_PREF"` and `"_NAME"`: the three tags that patch the
previously emitted line instead of producing their own. -/
def isPseudoTag (t : String) : Bool :=
  t = "_PDEF" || t = "_PREF" || t = "_NAME"

/-- Drop the first top-level entry of a document object (used to compare
documents modulo their `HEAD` entry, the only clock-dependent part). -/
def dropHeadEntry : JVal → JVal
  | .obj fields => .obj fields.tail
  | v => v

/-! ## Full conversion pipeline (`converter.convert`, parsing and export
steps only; archive handling is outside the core).  `convert` passes
`lang="English"`. -/

/-- Parse, build the document, linearize.  The header timestamp read from
the clock in `to_json` is the explicit `head_date` / `head_time` input. -/
def pipeline (text head_date head_time : String) :
    Except ParseError (Option String) :=
  (parse_node_ftt text).map
    (fun pc => json_to_gedcom (to_json pc.1 pc.2 "English" head_date head_time))

/-! ## Observers and specification predicates used by the theorems -/

/-- The integer-with-zero-as-absent coercion contract of the specification:
parse failure, or a successfully parsed value of exactly zero, yields "no
value"; any other parsed value is passed through unchanged. -/
def zeroAsAbsent (cell : String) (r : Option Int) : Prop :=
  match pyInt? cell with
  | none => r = none
  | some v => if v = 0 then r = none else r = some v

/-- The failure-as-absent coercion that `_to_int` with default flags (as
called for `parent_couple_id`, `male_id` and `female_id`) actually
applies: parse failure yields "no value", and any successfully parsed
integer — zero included — is stored unchanged. -/
def failAsAbsent (cell : String) (r : Option Int) : Prop :=
  match pyInt? cell with
  | none => r = none
  | some v => r = some v

/-- The tab cells of a person line as the parser sees them (split on tab,
right-padded with `""` to 29 cells). -/
def personCell (line : String) (i : Nat) : String :=
  (padTo 29 "" (splitChar '\t' line)).getD i ""

/-- The tab cells of a couple line (split on tab, right-padded with `"0"`
to 12 cells). -/
def coupleCell (line : String) (i : Nat) : String :=
  (padTo 12 "0" (splitChar '\t' line)).getD i "0"

/-- The condition under which the people loop of `build_indexes` appends the
id of the person entry `kv` to the children list stored under key `k`. -/
def childPred (couples_by_id : List (Int × Couple)) (k : Int) (kv : Int × Person) : Bool :=
  match kv.2.parent_couple_id with
  | some pc => decide (pc = k) && decide (¬ pc = 0) && hasKey couples_by_id pc
  | none => false

/-- The couple ids one `roleStep` appends to the list stored under key `k`
(the `hasKey` half of the guard is automatic for `k` itself, because `k` is
a key of the accumulator). -/
def roleBlock (k : Int) (person_id : Option Int) (cid : Int) : List Int :=
  match person_id with
  | some m => if m = k ∧ ¬ m = 0 then [cid] else []
  | none => []

/-- The couple ids the couples loop of `build_indexes` appends to the spouse
list stored under key `k` for one couple entry (male role before female). -/
def spouseBlock (k : Int) (kv : Int × Couple) : List Int :=
  roleBlock k kv.2.male_id kv.2.id ++ roleBlock k kv.2.female_id kv.2.id

/-- The pipeline output as a plain string (empty on a parse or patch
failure), for byte-comparison statements. -/
def pipelineOut (text head_date head_time : String) : String :=
  match pipeline text head_date head_time with
  | .ok (some s) => s
  | _ => ""

/-- A concrete person line whose cells 26, 27, 28 carry the three distinct
markers `"PL1"`, `"PL2"`, `" the note "` (cells 0-25 are empty). -/
def noteLine : String :=
  "\t\t\t\t\t\t\t\t\t\t\t\t\t\t\t\t\t\t\t\t\t\t\t\t\t\tPL1\tPL2\t the note "

example : pyInt? "12" = some 12 := by decide
example : pyInt? " -3 " = some (-3) := by decide
example : pyInt? "" = none := by decide
example : pyInt? "x7" = none := by decide
example : splitChar '\t' "a\t\tb" = ["a", "", "b"] := by decide
example : pySplitlines "a\nb\n" = ["a", "b"] := by decide
example : pySplitlines "" = [] := by decide
example : parse_node_ftt "" = .ok ([], []) := by decide
example : parse_node_ftt "x\t1" = .error .formatError := by decide
example : parse_node_ftt "2\t0\n1\tz" = .error .truncatedInput := by decide
example : (parse_node_ftt "1\t0\n5\t0\t3").map (fun pc => pc.1.map (fun kv => kv.1))
    = .ok [5] := by decide

/-- Sample data for concrete instantiations: person 1, child of couple 1. -/
def samplePersonOne : Person :=
  { dummyPerson with id := 1, parent_couple_id := some 1 }

/-- Sample data: person 2, child of couple 1. -/
def samplePersonTwo : Person :=
  { dummyPerson with id := 2, parent_couple_id := some 1 }

/-- Sample data: couple 1 with participants 1 and 2. -/
def sampleCouple : Couple :=
  { dummyCouple with id := 1, male_id := some 1, female_id := some 2 }

/-- Sample data: person 3, known dead with no date (death marker 128). -/
def samplePersonDead : Person :=
  { dummyPerson with id := 3, death_event := 128 }

/-! # Theorems -/

/-! ## Helper lemmas -/

theorem _to_int_contract (c : String) : zeroAsAbsent c (_to_int c false true) := by
  unfold zeroAsAbsent _to_int
  cases h : pyInt? c with
  | none => simp
  | some v => by_cases hv : v = 0 <;> simp [hv]

theorem _to_int_default_contract (c : String) : failAsAbsent c (_to_int c false false) := by
  unfold failAsAbsent _to_int
  cases h : pyInt? c with
  | none => simp
  | some v => simp

mutual

theorem rm_noEmptyField : ∀ (j : JVal), noEmptyField (remove_empty_strings j) = true
  | .str s => by simp [remove_empty_strings, noEmptyField]
  | .obj fields => by
      simp only [remove_empty_strings, noEmptyField]
      exact rm_noEmptyFieldFields fields
  | .list xs => by
      simp only [remove_empty_strings, noEmptyField]
      exact rm_noEmptyFieldElems xs

theorem rm_noEmptyFieldFields :
    ∀ (fs : List (String × JVal)), noEmptyFieldFields (removeFieldsAux fs) = true
  | [] => by simp [removeFieldsAux, noEmptyFieldFields]
  | (k, v) :: rest => by
      match v with
      | .str s =>
          by_cases h : s = "" <;>
            simp [removeFieldsAux, noEmptyFieldFields, noEmptyField, isEmptyStr,
                  remove_empty_strings, h, rm_noEmptyFieldFields rest]
      | .obj fs2 =>
          simp [removeFieldsAux, noEmptyFieldFields, remove_empty_strings, noEmptyField,
                isEmptyStr, rm_noEmptyFieldFields rest, rm_noEmptyFieldFields fs2]
      | .list xs =>
          simp [removeFieldsAux, noEmptyFieldFields, remove_empty_strings, noEmptyField,
                isEmptyStr, rm_noEmptyFieldFields rest, rm_noEmptyFieldElems xs]

theorem rm_noEmptyFieldElems :
    ∀ (xs : List JVal), noEmptyFieldElems (removeElemsAux xs) = true
  | [] => by simp [removeElemsAux, noEmptyFieldElems]
  | x :: xs => by
      simp [removeElemsAux, noEmptyFieldElems, rm_noEmptyField x, rm_noEmptyFieldElems xs]

end

/-! ## C2 — coercion of the identifier cells

The constructor calls in `parse_node_ftt` coerce `parent_couple_id`
(line 64), `male_id` (line 105) and `female_id` (line 107) with
`_to_int(parts[...])` using the **default** flags: a cell parsing to
exactly zero is stored as the integer 0, not as "no value".  Only the
birth/death date components (lines 79-85) pass `_0_is_None=True`. -/

/-- C2 counterexample: a `"0"` cell in the parent-couple position of a
person line, or in a participant position of a couple line, is stored as
the integer zero — not as "no value" — refuting the claimed
zero-as-absent coercion of those three identifiers. -/
theorem C2_counterexample :
    (parsePersonLine "5\t0\t0").parent_couple_id = some 0 ∧
    (parseCoupleLine "7\t0\t0\t0\t0").male_id = some 0 ∧
    (parseCoupleLine "7\t0\t0\t0\t0").female_id = some 0 ∧
    ¬ (parsePersonLine "5\t0\t0").parent_couple_id = none := by
  decide

/-- C2 (amended): the parent-couple identifier and the male and female
participant identifiers are coerced with a failure-as-absent contract —
a cell that fails to parse as a base-10 integer yields "no value", while
any successfully parsed value, zero included, is stored unchanged; the
integer-with-zero-as-absent contract (parse failure OR parsed zero both
yielding "no value", distinguished from the integer zero) is applied to
the birth and death date component cells instead. -/
theorem C2_identifier_coercion (lineP lineC : String) :
    failAsAbsent (personCell lineP 2) (parsePersonLine lineP).parent_couple_id ∧
    failAsAbsent (coupleCell lineC 2) (parseCoupleLine lineC).male_id ∧
    failAsAbsent (coupleCell lineC 4) (parseCoupleLine lineC).female_id ∧
    zeroAsAbsent (personCell lineP 17) (parsePersonLine lineP).birth_year ∧
    zeroAsAbsent (personCell lineP 18) (parsePersonLine lineP).birth_month ∧
    zeroAsAbsent (personCell lineP 19) (parsePersonLine lineP).birth_day ∧
    zeroAsAbsent (personCell lineP 21) (parsePersonLine lineP).death_year ∧
    zeroAsAbsent (personCell lineP 22) (parsePersonLine lineP).death_month ∧
    zeroAsAbsent (personCell lineP 23) (parsePersonLine lineP).death_day :=
  ⟨_to_int_default_contract _, _to_int_default_contract _, _to_int_default_contract _,
   _to_int_contract _, _to_int_contract _, _to_int_contract _,
   _to_int_contract _, _to_int_contract _, _to_int_contract _⟩

/-! ## C3 — position of the note cell relative to the second placeholder pair

The claim (and the docstring of `parse_node_ftt` itself: `...26:note
27:tab_unk3 28:tab_unk4`, as well as the comment `placeholders after note`
in `models.py`) places the note cell before the two placeholder cells.
The constructor call in `converter.py` does the opposite: it maps cells 26
and 27 to the placeholder pair and cell 28 to the note. -/

/-- C3: evaluating the parser on a person line whose cells 26, 27, 28 are
the three distinct markers shows that the `Person` model takes its
placeholder pair from cells 26-27 and its (trimmed) note from cell 28 —
the note cell comes after both placeholder cells, contradicting the claim
and the parser's own docstring. -/
theorem C3_placeholder_positions :
    personCell noteLine 26 = "PL1" ∧ personCell noteLine 27 = "PL2" ∧
    personCell noteLine 28 = " the note " ∧
    (parsePersonLine noteLine).tab_unk3 = "PL1" ∧
    (parsePersonLine noteLine).tab_unk4 = "PL2" ∧
    (parsePersonLine noteLine).note = some "the note" := by
  refine ⟨rfl, rfl, rfl, rfl, rfl, ?_⟩
  decide

/-! ## C5 — date formatting granularity and the month-name case -/

/-- C5: the date formatter renders nothing without a year, the year alone
without a (valid) month, and month-name plus year (or day, month name,
year) otherwise — but the month table of `utils.py` is mixed-case, so the
rendered strings are `"May 1900"` / `"3 May 1900"`, not the `"MAY 1900"` /
`"3 MAY 1900"` the claim states (and which the uppercase table of the
in-repo `src/main.py` and the GEDCOM 5.5.1 date grammar prescribe). -/
theorem C5_fmt_ged_date_eval :
    fmt_ged_date (some 1900) none none = some "1900" ∧
    fmt_ged_date (some 1900) (some 5) none = some "May 1900" ∧
    fmt_ged_date (some 1900) (some 5) (some 3) = some "3 May 1900" ∧
    fmt_ged_date none (some 5) (some 3) = none ∧
    fmt_ged_date (some 1900) (some 13) (some 3) = some "1900" ∧
    ¬ fmt_ged_date (some 1900) (some 5) none = some "MAY 1900" ∧
    ¬ fmt_ged_date (some 1900) (some 5) (some 3) = some "3 MAY 1900" := by
  decide

/-! ## C9 — empty-string pruning -/

/-- C9 counterexample: pruning a document whose list holds the empty string
as a direct element returns it unchanged — the pruned document still
contains an empty-string value, refuting the claim that the result
contains no empty-string value anywhere. -/
theorem C9_counterexample :
    remove_empty_strings (.obj [("A", .list [.str "", .str "x"])])
        = .obj [("A", .list [.str "", .str "x"])] ∧
    noEmptyAnywhere (remove_empty_strings (.obj [("A", .list [.str "", .str "x"])])) = false := by
  exact ⟨rfl, rfl⟩

/-- C9 (amended): the pruning step removes every dict field whose value is
the empty string, recursively at every depth — through nested dicts and
through dicts inside lists — so the pruned document contains no
empty-string dict-field value anywhere.  (Empty strings that are direct
list elements are not fields and are not removed, per the counterexample.) -/
theorem C9_amended (j : JVal) : noEmptyField (remove_empty_strings j) = true :=
  rm_noEmptyField j

/-! ## C6 — two-run determinism of the pipeline -/

/-- C6 counterexample: the header block embeds the generation timestamp
read from the clock, so two runs of the full pipeline on the same input
text at different times yield different bytes — the output does not depend
on the input text alone. -/
theorem C6_counterexample :
    pipelineOut "0\t0" "01 JAN 2020" "00:00:00"
      ≠ pipelineOut "0\t0" "01 JAN 2020" "00:00:01" := by
  decide

/-- C6 (amended): the generation timestamp influences the document only
inside its `HEAD` entry; outside that entry the built document — and hence
the linearized GEDCOM text — is a function of the parsed input alone, so
two runs with the timestamp held fixed are byte-identical. -/
theorem C6_amended (people : List (Int × Person)) (couples : List (Int × Couple))
    (lang d1 t1 d2 t2 : String) :
    dropHeadEntry (to_json people couples lang d1 t1)
      = dropHeadEntry (to_json people couples lang d2 t2) := rfl

/-! ## C1 — fatal parse failures -/

theorem pyIndex_nonneg_none_iff {α : Type} (xs : List α) (i : Int) (h : 0 ≤ i) :
    pyIndex xs i = none ↔ (xs.length : Int) ≤ i := by
  have h1 : ¬ i < 0 := by omega
  simp only [pyIndex, if_neg h1]
  rw [List.get?_eq_none]
  omega

theorem parsePeopleAux_error_truncated (lines : List String) :
    ∀ (idxs : List Int) (acc : List (Int × Person)) (e : ParseError),
      parsePeopleAux lines idxs acc = .error e → e = .truncatedInput := by
  intro idxs
  induction idxs with
  | nil => intro acc e h; simp [parsePeopleAux] at h
  | cons i is ih =>
      intro acc e h
      rw [parsePeopleAux] at h
      cases hpi : pyIndex lines i with
      | none => rw [hpi] at h; injection h with h; exact h.symm
      | some ln => rw [hpi] at h; exact ih _ e h

theorem parsePeopleAux_error_iff (lines : List String) :
    ∀ (idxs : List Int) (acc : List (Int × Person)),
      parsePeopleAux lines idxs acc = .error .truncatedInput ↔
        ∃ i ∈ idxs, pyIndex lines i = none := by
  intro idxs
  induction idxs with
  | nil => intro acc; simp [parsePeopleAux]
  | cons i is ih =>
      intro acc
      rw [parsePeopleAux]
      cases hpi : pyIndex lines i with
      | none => simp [hpi]
      | some ln => simp [hpi, ih]

theorem parseCouplesAux_error_truncated (lines : List String) :
    ∀ (idxs : List Int) (acc : List (Int × Couple)) (e : ParseError),
      parseCouplesAux lines idxs acc = .error e → e = .truncatedInput := by
  intro idxs
  induction idxs with
  | nil => intro acc e h; simp [parseCouplesAux] at h
  | cons i is ih =>
      intro acc e h
      rw [parseCouplesAux] at h
      cases hpi : pyIndex lines i with
      | none => rw [hpi] at h; injection h with h; exact h.symm
      | some ln => rw [hpi] at h; exact ih _ e h

theorem parseCouplesAux_error_iff (lines : List String) :
    ∀ (idxs : List Int) (acc : List (Int × Couple)),
      parseCouplesAux lines idxs acc = .error .truncatedInput ↔
        ∃ i ∈ idxs, pyIndex lines i = none := by
  intro idxs
  induction idxs with
  | nil => intro acc; simp [parseCouplesAux]
  | cons i is ih =>
      intro acc
      rw [parseCouplesAux]
      cases hpi : pyIndex lines i with
      | none => simp [hpi]
      | some ln => simp [hpi, ih]

theorem mem_intRangeGo {i : Int} :
    ∀ (m : Nat) (start : Int),
      i ∈ intRangeGo start m ↔ ∃ k : Nat, k < m ∧ i = start + (k : Int) := by
  intro m
  induction m with
  | zero => intro start; simp [intRangeGo]
  | succ m ih =>
      intro start
      rw [intRangeGo, List.mem_cons, ih (start + 1)]
      constructor
      · rintro (rfl | ⟨k, hk, rfl⟩)
        · exact ⟨0, by omega, by simp⟩
        · exact ⟨k + 1, by omega, by push_cast; ring⟩
      · rintro ⟨k, hk, rfl⟩
        match k with
        | 0 => left; simp
        | k + 1 => right; exact ⟨k, by omega, by push_cast; ring⟩

theorem mem_intRange {i start n : Int} :
    i ∈ intRange start n ↔ ∃ k : Nat, k < n.toNat ∧ i = start + (k : Int) :=
  mem_intRangeGo n.toNat start

theorem exists_bad_index_iff (lines : List String) (start n : Int)
    (hs : 0 ≤ start) (hn : 0 ≤ n) :
    (∃ i ∈ intRange start n, pyIndex lines i = none) ↔
      (1 ≤ n ∧ (lines.length : Int) ≤ start + n - 1) := by
  constructor
  · rintro ⟨i, hi, hnone⟩
    obtain ⟨k, hk, rfl⟩ := mem_intRange.mp hi
    have hk0 : (0 : Int) ≤ (k : Int) := Int.ofNat_nonneg k
    have hkn : (k : Int) < n := by omega
    have h0i : (0 : Int) ≤ start + (k : Int) := by omega
    have := (pyIndex_nonneg_none_iff lines (start + (k : Int)) h0i).mp hnone
    omega
  · rintro ⟨h1, h2⟩
    have hk0 : (0 : Int) ≤ ((n - 1).toNat : Int) := Int.ofNat_nonneg _
    have hkn : ((n - 1).toNat : Int) = n - 1 := by omega
    refine ⟨start + ((n - 1).toNat : Int), ?_, ?_⟩
    · exact mem_intRange.mpr ⟨(n - 1).toNat, by omega, rfl⟩
    · have h0i : (0 : Int) ≤ start + ((n - 1).toNat : Int) := by omega
      rw [pyIndex_nonneg_none_iff lines (start + ((n - 1).toNat : Int)) h0i]
      omega

/-- C1 counterexample: an input text with no non-blank line does not fail —
`parse_node_ftt` returns a pair of empty collections, not a FormatError,
refuting the claim's first disjunct ("header line missing ... fails with a
FormatError"). -/
theorem C1_counterexample :
    parse_node_ftt "" = .ok ([], []) ∧
    ¬ parse_node_ftt "" = .error ParseError.formatError := by
  decide

/-- C1 (amended): an input with no non-blank lines yields empty collections
without error; otherwise, failure of either of the first two header cells
to parse as an integer (including a missing second cell) is a FormatError,
and — for non-negative declared counts — the parse fails with a
TruncatedInputError exactly when the header line plus the declared person
and couple counts exceed the number of non-blank lines.  In both error
cases the result is an error value carrying no collections, so nothing
partial is produced. -/
theorem C1_parse_failures (text : String) :
    (nonBlankLines text = [] → parse_node_ftt text = .ok ([], [])) ∧
    (∀ hd rest, nonBlankLines text = hd :: rest →
      (parseHeader hd = none → parse_node_ftt text = .error .formatError) ∧
      (∀ np nc : Int, parseHeader hd = some (np, nc) → 0 ≤ np → 0 ≤ nc →
        (parse_node_ftt text = .error .truncatedInput ↔
          ((hd :: rest).length : Int) < 1 + np + nc))) := by
  constructor
  · intro h
    simp [parse_node_ftt, h]
  · intro hd rest h
    constructor
    · intro hh
      simp [parse_node_ftt, h, hh]
    · intro np nc hh hnp hnc
      have hlen : ((hd :: rest).length : Int) = (rest.length : Int) + 1 := by
        simp [List.length_cons]
      simp only [parse_node_ftt, h, List.isEmpty_cons, List.headD_cons, hh]
      cases hp : parsePeopleAux (hd :: rest) (intRange 1 np) [] with
      | error e =>
          have he := parsePeopleAux_error_truncated (hd :: rest) (intRange 1 np) [] e hp
          subst he
          have hex := (parsePeopleAux_error_iff (hd :: rest) (intRange 1 np) []).mp hp
          have hb := (exists_bad_index_iff (hd :: rest) 1 np (by omega) hnp).mp hex
          constructor
          · intro _; omega
          · intro _; rfl
      | ok people =>
          have hnex : ¬ (1 ≤ np ∧ ((hd :: rest).length : Int) ≤ 1 + np - 1) := by
            intro hcon
            have hex := (exists_bad_index_iff (hd :: rest) 1 np (by omega) hnp).mpr hcon
            have hcontra := (parsePeopleAux_error_iff (hd :: rest) (intRange 1 np) []).mpr hex
            rw [hp] at hcontra
            exact absurd hcontra (by simp)
          cases hc : parseCouplesAux (hd :: rest) (intRange (1 + np) nc) [] with
          | error e =>
              have he := parseCouplesAux_error_truncated (hd :: rest) _ [] e hc
              subst he
              have hex := (parseCouplesAux_error_iff (hd :: rest) _ []).mp hc
              have hb := (exists_bad_index_iff (hd :: rest) (1 + np) nc (by omega) hnc).mp hex
              constructor
              · intro _; omega
              · intro _; rfl
          | ok couples =>
              have hnex2 : ¬ (1 ≤ nc ∧ ((hd :: rest).length : Int) ≤ (1 + np) + nc - 1) := by
                intro hcon
                have hex := (exists_bad_index_iff (hd :: rest) (1 + np) nc (by omega) hnc).mpr hcon
                have hcontra := (parseCouplesAux_error_iff (hd :: rest) _ []).mpr hex
                rw [hc] at hcontra
                exact absurd hcontra (by simp)
              constructor
              · intro hfalse; exact absurd hfalse (by simp)
              · intro hlt
                exfalso
                omega

/-- C1 witness: concrete inputs for the amended claim — a declared count of
2+2 records over a single record line is a TruncatedInputError, and a
non-numeric first header cell is a FormatError. -/
theorem C1_parse_failures_witness :
    parse_node_ftt "2\t2\n1" = .error ParseError.truncatedInput ∧
    parse_node_ftt "x\t1" = .error ParseError.formatError := by
  constructor
  · exact (((C1_parse_failures "2\t2\n1").2 "2\t2" ["1"] (by decide)).2 2 2
      (by decide) (by decide) (by decide)).mpr (by decide)
  · exact ((C1_parse_failures "x\t1").2 "x\t1" [] (by decide)).1 (by decide)


/-! ## Characterization of `build_indexes` (C4, C10) -/

theorem appendAt_getElem? (m : List (Int × List Int)) (k v : Int) (i : Nat) :
    (appendAt m k v)[i]?
      = (m[i]?).map (fun e => if e.1 = k then (e.1, e.2 ++ [v]) else e) := by
  simp [appendAt, List.getElem?_map]

theorem hasKey_appendAt (m : List (Int × List Int)) (k v x : Int) :
    hasKey (appendAt m k v) x = hasKey m x := by
  induction m with
  | nil => rfl
  | cons e rest ih =>
      simp only [appendAt, hasKey, List.map_cons, List.any_cons] at *
      by_cases h : e.1 = k <;> simp [h, ih]

theorem hasKey_of_getElem? (m : List (Int × List Int)) (i : Nat) (e : Int × List Int)
    (h : m[i]? = some e) : hasKey m e.1 = true := by
  obtain ⟨hlt, rfl⟩ := List.getElem?_eq_some.mp h
  simp only [hasKey, List.any_eq_true]
  exact ⟨m[i], List.getElem_mem hlt, by simp⟩

theorem childStep_getElem? (couples : List (Int × Couple)) (acc : List (Int × List Int))
    (p : Int × Person) (i : Nat) :
    (childStep couples acc p)[i]?
      = (acc[i]?).map (fun e =>
          (e.1, e.2 ++ (if childPred couples e.1 p then [p.2.id] else []))) := by
  have hstep : childStep couples acc p
      = (match p.2.parent_couple_id with
         | some pc => if pc ≠ 0 ∧ hasKey couples pc = true then appendAt acc pc p.2.id else acc
         | none => acc) := rfl
  rw [hstep]
  cases hpc : p.2.parent_couple_id with
  | none =>
      dsimp only
      cases h : acc[i]? with
      | none => simp [h]
      | some e => simp [h, childPred, hpc]
  | some pc =>
      dsimp only
      by_cases hg : pc ≠ 0 ∧ hasKey couples pc = true
      · rw [if_pos hg, appendAt_getElem?]
        cases h : acc[i]? with
        | none => simp
        | some e =>
            by_cases hk : e.1 = pc
            · subst hk
              have hpred : childPred couples e.1 p = true := by
                simp [childPred, hpc, hg.1, hg.2]
              simp [hpred]
            · have hpred : childPred couples e.1 p = false := by
                simp only [childPred, hpc]
                simp only [Bool.and_eq_false_iff]
                left; left
                simpa using fun he => hk he.symm
              simp [hk, hpred]
      · rw [if_neg hg]
        cases h : acc[i]? with
        | none => simp [h]
        | some e =>
            have hpred : childPred couples e.1 p = false := by
              simp only [childPred, hpc]
              rcases not_and_or.mp hg with h0 | hkk
              · have h0' : pc = 0 := by omega
                simp [h0']
              · simp [eq_false_of_ne_true hkk]
            simp [h, hpred]

theorem childFold_getElem? (couples : List (Int × Couple)) :
    ∀ (ps : List (Int × Person)) (acc : List (Int × List Int)) (i : Nat),
      (ps.foldl (childStep couples) acc)[i]?
        = (acc[i]?).map (fun e =>
            (e.1, e.2 ++ (ps.filter (childPred couples e.1)).map (fun kv => kv.2.id))) := by
  intro ps
  induction ps with
  | nil =>
      intro acc i
      cases h : acc[i]? <;> simp [h]
  | cons p ps ih =>
      intro acc i
      rw [List.foldl_cons, ih, childStep_getElem?]
      cases h : acc[i]? with
      | none => simp
      | some e =>
          by_cases hpred : childPred couples e.1 p <;>
            simp [hpred, List.filter_cons]

theorem children_of_couple_getElem? (people : List (Int × Person))
    (couples : List (Int × Couple)) (i : Nat) :
    ((build_indexes people couples).1)[i]?
      = (couples[i]?).map (fun ckv =>
          (ckv.1, (people.filter (childPred couples ckv.1)).map (fun kv => kv.2.id))) := by
  unfold build_indexes
  rw [childFold_getElem?]
  cases h : couples[i]? <;> simp [h, List.getElem?_map]

theorem roleStep_getElem? (acc : List (Int × List Int)) (pid : Option Int) (cid : Int)
    (i : Nat) :
    (roleStep acc pid cid)[i]?
      = (acc[i]?).map (fun e => (e.1, e.2 ++ roleBlock e.1 pid cid)) := by
  cases hpid : pid with
  | none =>
      cases h : acc[i]? <;> simp [roleStep, roleBlock, h]
  | some m =>
      cases h : acc[i]? with
      | none =>
          by_cases hg : m ≠ 0 ∧ hasKey acc m = true <;>
            simp [roleStep, hg, appendAt, List.getElem?_map, h]
      | some e =>
          by_cases hg : m ≠ 0 ∧ hasKey acc m = true
          · rw [roleStep, if_pos hg, appendAt_getElem?, h]
            by_cases hk : e.1 = m
            · subst hk
              simp [roleBlock, hg.1]
            · have : ¬ (m = e.1 ∧ ¬ m = 0) := by
                intro hcon
                exact hk hcon.1.symm
              simp [roleBlock, hk, this]
          · rw [roleStep, if_neg hg, h]
            by_cases hk : m = e.1
            · have hkey := hasKey_of_getElem? acc i e h
              have hm0 : m = 0 := by
                rcases not_and_or.mp hg with h0 | hkk
                · omega
                · rw [hk] at hkk
                  exact absurd hkey hkk
              simp [roleBlock, hm0]
            · simp [roleBlock, hk]

theorem spouseStep_getElem? (acc : List (Int × List Int)) (c : Int × Couple) (i : Nat) :
    (spouseStep acc c)[i]?
      = (acc[i]?).map (fun e => (e.1, e.2 ++ spouseBlock e.1 c)) := by
  unfold spouseStep
  rw [roleStep_getElem?, roleStep_getElem?]
  cases h : acc[i]? <;> simp [h, spouseBlock, List.append_assoc]

theorem spouseFold_getElem? :
    ∀ (cs : List (Int × Couple)) (acc : List (Int × List Int)) (i : Nat),
      (cs.foldl spouseStep acc)[i]?
        = (acc[i]?).map (fun e => (e.1, e.2 ++ (cs.map (spouseBlock e.1)).flatten)) := by
  intro cs
  induction cs with
  | nil =>
      intro acc i
      cases h : acc[i]? <;> simp [h]
  | cons c cs ih =>
      intro acc i
      rw [List.foldl_cons, ih, spouseStep_getElem?]
      cases h : acc[i]? <;> simp [h, List.append_assoc]

theorem couples_of_person_getElem? (people : List (Int × Person))
    (couples : List (Int × Couple)) (i : Nat) :
    ((build_indexes people couples).2)[i]?
      = (people[i]?).map (fun pkv =>
          (pkv.1, (couples.map (spouseBlock pkv.1)).flatten)) := by
  unfold build_indexes
  rw [spouseFold_getElem?]
  cases h : people[i]? <;> simp [h, List.getElem?_map]

theorem childStep_length (couples : List (Int × Couple)) (acc : List (Int × List Int))
    (p : Int × Person) : (childStep couples acc p).length = acc.length := by
  have hstep : childStep couples acc p
      = (match p.2.parent_couple_id with
         | some pc => if pc ≠ 0 ∧ hasKey couples pc = true then appendAt acc pc p.2.id else acc
         | none => acc) := rfl
  rw [hstep]
  cases p.2.parent_couple_id with
  | none => rfl
  | some pc =>
      dsimp only
      split
      · simp [appendAt]
      · rfl

theorem childFold_length (couples : List (Int × Couple)) :
    ∀ (ps : List (Int × Person)) (acc : List (Int × List Int)),
      (ps.foldl (childStep couples) acc).length = acc.length := by
  intro ps
  induction ps with
  | nil => intro acc; rfl
  | cons p ps ih =>
      intro acc
      rw [List.foldl_cons, ih, childStep_length]

theorem build_children_length (people : List (Int × Person)) (couples : List (Int × Couple)) :
    (build_indexes people couples).1.length = couples.length := by
  unfold build_indexes
  rw [childFold_length]
  simp

theorem mem_spouseBlock {x k : Int} {c : Int × Couple} (h : x ∈ spouseBlock k c) :
    x = c.2.id := by
  unfold spouseBlock roleBlock at h
  rcases c.2.male_id with _ | m <;> rcases c.2.female_id with _ | f <;>
    simp only [List.mem_append] at h <;>
    rcases h with h | h <;> split at h <;> simp_all

theorem sorted_spouseBlock (k : Int) (c : Int × Couple) :
    List.Sorted (· ≤ ·) (spouseBlock k c) := by
  unfold spouseBlock roleBlock
  rcases c.2.male_id with _ | m <;> rcases c.2.female_id with _ | f <;> dsimp only <;>
    first
      | (split_ifs <;> simp [List.sorted_cons])
      | simp [List.sorted_cons]

theorem sorted_flatten_spouseBlocks (k : Int) :
    ∀ (cs : List (Int × Couple)),
      List.Sorted (· ≤ ·) (cs.map (fun kv => kv.2.id)) →
      List.Sorted (· ≤ ·) ((cs.map (spouseBlock k)).flatten) := by
  intro cs
  induction cs with
  | nil => intro _; simp
  | cons c cs ih =>
      intro hs
      rw [List.map_cons] at hs
      have hs' := List.sorted_cons.mp hs
      simp only [List.map_cons, List.flatten_cons]
      rw [List.Sorted, List.pairwise_append]
      refine ⟨sorted_spouseBlock k c, ih hs'.2, ?_⟩
      intro x hx y hy
      rw [mem_spouseBlock hx]
      obtain ⟨l, hl, hyl⟩ := List.mem_flatten.mp hy
      obtain ⟨c2, hc2, rfl⟩ := List.mem_map.mp hl
      rw [mem_spouseBlock hyl]
      exact hs'.1 c2.2.id (List.mem_map.mpr ⟨c2, hc2, rfl⟩)

/-! ## C4 — ordering of the index lists -/

/-- C4 counterexample: parsing an input whose two person lines appear in the
order id 2, id 1 (both children of couple 1) yields a children list
`[2, 1]` in map-insertion order, which is not ascending — refuting
"ascending numeric order ... not input order". -/
theorem C4_counterexample :
    (parse_node_ftt "2\t1\n2\t0\t1\n1\t0\t1\n1").map
        (fun pc => (build_indexes pc.1 pc.2).1) = .ok [(1, [2, 1])] ∧
    ¬ List.Sorted (· ≤ ·) ([2, 1] : List Int) := by
  constructor
  · decide
  · decide

/-- C4 (amended): the children and couples lists built by `build_indexes`
follow the iteration (insertion) order of the people and couples maps; when
those maps are iterated in ascending identifier order — as they are when
the ids appear in ascending order — every children list and every
spouse-couples list is ascending. -/
theorem C4_index_order (people : List (Int × Person)) (couples : List (Int × Couple))
    (hp : List.Sorted (· ≤ ·) (people.map (fun kv => kv.2.id)))
    (hc : List.Sorted (· ≤ ·) (couples.map (fun kv => kv.2.id))) :
    (∀ e ∈ (build_indexes people couples).1, List.Sorted (· ≤ ·) e.2) ∧
    (∀ e ∈ (build_indexes people couples).2, List.Sorted (· ≤ ·) e.2) := by
  constructor
  · intro e he
    obtain ⟨i, hi⟩ := List.mem_iff_getElem?.mp he
    rw [children_of_couple_getElem? people couples i] at hi
    cases hci : couples[i]? with
    | none => rw [hci] at hi; exact absurd hi (by simp)
    | some ckv =>
        rw [hci] at hi
        have he2 := Option.some.inj hi
        rw [← he2]
        apply List.Pairwise.sublist _ hp
        exact List.Sublist.map _ (List.filter_sublist people)
  · intro e he
    obtain ⟨i, hi⟩ := List.mem_iff_getElem?.mp he
    rw [couples_of_person_getElem? people couples i] at hi
    cases hpi : people[i]? with
    | none => rw [hpi] at hi; exact absurd hi (by simp)
    | some pkv =>
        rw [hpi] at hi
        have he2 := Option.some.inj hi
        rw [← he2]
        exact sorted_flatten_spouseBlocks pkv.1 couples hc

/-- C4 witness: on a concrete ascending-ordered pair of collections the
amended claim's hypotheses hold and its conclusion follows. -/
theorem C4_index_order_witness :
    List.Sorted (· ≤ ·)
        ([(1, samplePersonOne), (2, samplePersonTwo)].map (fun kv => kv.2.id)) ∧
    List.Sorted (· ≤ ·) ([(1, sampleCouple)].map (fun kv => kv.2.id)) ∧
    ((∀ e ∈ (build_indexes [(1, samplePersonOne), (2, samplePersonTwo)]
          [(1, sampleCouple)]).1, List.Sorted (· ≤ ·) e.2) ∧
     (∀ e ∈ (build_indexes [(1, samplePersonOne), (2, samplePersonTwo)]
          [(1, sampleCouple)]).2, List.Sorted (· ≤ ·) e.2)) :=
  ⟨by decide, by decide,
   C4_index_order [(1, samplePersonOne), (2, samplePersonTwo)] [(1, sampleCouple)]
     (by decide) (by decide)⟩

/-! ## C10 — children lists partition the person identifiers -/

theorem childPred_parent {couples : List (Int × Couple)} {k : Int} {kv : Int × Person}
    (h : childPred couples k kv = true) : kv.2.parent_couple_id = some k := by
  unfold childPred at h
  cases hpc : kv.2.parent_couple_id with
  | none => rw [hpc] at h; exact absurd h (by simp)
  | some pc =>
      rw [hpc] at h
      simp only [Bool.and_eq_true, decide_eq_true_eq] at h
      rw [h.1.1]

/-- C10: over collections with unique person identifiers and unique couple
keys — as every pair of parsed collections is, both being keyed Python
dicts keyed by the record's id — the children lists of `build_indexes` are
duplicate-free and pairwise disjoint: each person identifier lands in the
children list of at most one couple, at most once. -/
theorem C10_children_partition (people : List (Int × Person)) (couples : List (Int × Couple))
    (hids : (people.map (fun kv => kv.2.id)).Nodup)
    (hkeys : (couples.map (fun kv => kv.1)).Nodup) :
    (∀ e ∈ (build_indexes people couples).1, e.2.Nodup) ∧
    List.Pairwise (fun a b => ∀ x ∈ a.2, x ∉ b.2) (build_indexes people couples).1 := by
  constructor
  · intro e he
    obtain ⟨i, hi⟩ := List.mem_iff_getElem?.mp he
    rw [children_of_couple_getElem? people couples i] at hi
    cases hci : couples[i]? with
    | none => rw [hci] at hi; exact absurd hi (by simp)
    | some ckv =>
        rw [hci] at hi
        have he2 := Option.some.inj hi
        rw [← he2]
        apply List.Nodup.sublist _ hids
        exact List.Sublist.map _ (List.filter_sublist people)
  · rw [List.pairwise_iff_getElem]
    intro i j h1 h2 hij
    have hlen := build_children_length people couples
    have hic : i < couples.length := by omega
    have hjc : j < couples.length := by omega
    have hi' := children_of_couple_getElem? people couples i
    rw [List.getElem?_eq_getElem h1, List.getElem?_eq_getElem hic] at hi'
    have hei := Option.some.inj hi'
    have hj' := children_of_couple_getElem? people couples j
    rw [List.getElem?_eq_getElem h2, List.getElem?_eq_getElem hjc] at hj'
    have hej := Option.some.inj hj'
    have hkne : couples[i].1 ≠ couples[j].1 := by
      have hpw := List.pairwise_iff_getElem.mp hkeys i j
        (by simpa using hic) (by simpa using hjc) hij
      simpa using hpw
    intro x hx hxj
    rw [hei] at hx
    rw [hej] at hxj
    simp only [List.mem_map] at hx hxj
    obtain ⟨kv1, hkv1f, hkv1x⟩ := hx
    obtain ⟨kv2, hkv2f, hkv2x⟩ := hxj
    have hkv1 := List.mem_filter.mp hkv1f
    have hkv2 := List.mem_filter.mp hkv2f
    have heq : kv1 = kv2 :=
      List.inj_on_of_nodup_map hids hkv1.1 hkv2.1 (by rw [hkv1x, hkv2x])
    have hp1 := childPred_parent hkv1.2
    have hp2 := childPred_parent hkv2.2
    rw [heq, hp2] at hp1
    exact hkne (Option.some.inj hp1).symm

/-- C10 witness: a concrete parsed-shaped pair of collections satisfying
the uniqueness hypotheses, with the partition conclusion instantiated. -/
theorem C10_children_partition_witness :
    ([(1, samplePersonOne), (2, samplePersonTwo)].map (fun kv => kv.2.id)).Nodup ∧
    ([(1, sampleCouple)].map (fun kv => kv.1)).Nodup ∧
    ((∀ e ∈ (build_indexes [(1, samplePersonOne), (2, samplePersonTwo)]
        [(1, sampleCouple)]).1, e.2.Nodup) ∧
     List.Pairwise (fun a b => ∀ x ∈ a.2, x ∉ b.2)
       (build_indexes [(1, samplePersonOne), (2, samplePersonTwo)] [(1, sampleCouple)]).1) :=
  ⟨by decide, by decide,
   C10_children_partition [(1, samplePersonOne), (2, samplePersonTwo)] [(1, sampleCouple)]
     (by decide) (by decide)⟩

/-! ## C8 — the death block of an individual record -/

theorem ne_empty_of_length_pos {s : String} (h : 0 < s.length) : s ≠ "" := by
  intro he
  subst he
  exact absurd h (by decide)

theorem natStrGo_length_le :
    ∀ (fuel n : Nat) (acc : List Char), acc.length ≤ (natStrGo fuel n acc).length := by
  intro fuel
  induction fuel with
  | zero => intro n acc; rw [natStrGo]
  | succ fuel ih =>
      intro n acc
      rw [natStrGo]
      by_cases h : n = 0
      · rw [if_pos h]
      · rw [if_neg h]
        have := ih (n / 10) (Char.ofNat (48 + n % 10) :: acc)
        simp only [List.length_cons] at this
        omega

theorem natStr_length_pos (n : Nat) : 0 < (natStr n).length := by
  unfold natStr
  by_cases h : n = 0
  · rw [if_pos h]; decide
  · rw [if_neg h]
    match n, h with
    | m + 1, _ =>
        rw [natStrGo, if_neg (by omega)]
        have := natStrGo_length_le m ((m + 1) / 10) [Char.ofNat (48 + (m + 1) % 10)]
        simp only [List.length_cons, List.length_nil] at this
        simpa [String.length] using this

theorem intStr_ne_empty (i : Int) : intStr i ≠ "" := by
  unfold intStr
  split
  · apply ne_empty_of_length_pos
    have := natStr_length_pos (-i).toNat
    simp only [String.length_append]
    omega
  · exact ne_empty_of_length_pos (natStr_length_pos i.toNat)

theorem fmt_ged_date_ne_empty {y m d : Option Int} {s : String}
    (h : fmt_ged_date y m d = some s) : s ≠ "" := by
  unfold fmt_ged_date at h
  cases y with
  | none => exact absurd h (by simp)
  | some y =>
      dsimp only at h
      cases m with
      | none => exact Option.some.inj h ▸ intStr_ne_empty y
      | some m =>
          dsimp only at h
          cases hmon : (if 1 ≤ m ∧ m ≤ 12 then GED_MONTHS.getD m.toNat none else none) with
          | none => rw [hmon] at h; exact Option.some.inj h ▸ intStr_ne_empty y
          | some mon =>
              rw [hmon] at h
              dsimp only at h
              cases d with
              | none =>
                  have hs := Option.some.inj h
                  apply ne_empty_of_length_pos
                  rw [← hs]
                  have := intStr_ne_empty y
                  have h1 : 0 < (intStr y).length := by
                    rcases Nat.eq_zero_or_pos (intStr y).length with h0 | h0
                    · exact absurd (String.ext (List.length_eq_zero.mp h0)) this
                    · exact h0
                  simp only [String.length_append]
                  omega
              | some d =>
                  have hs := Option.some.inj h
                  apply ne_empty_of_length_pos
                  rw [← hs]
                  have h1 : 0 < (intStr d).length := by
                    rcases Nat.eq_zero_or_pos (intStr d).length with h0 | h0
                    · exact absurd (String.ext (List.length_eq_zero.mp h0)) (intStr_ne_empty d)
                    · exact h0
                  simp only [String.length_append]
                  omega

theorem find?_death_birthEntry (p : Person) :
    (birthEntry p).find? (fun kv => kv.1 = "DEAT") = none := by
  unfold birthEntry
  cases fmt_ged_date p.birth_year p.birth_month p.birth_day with
  | none => rfl
  | some s =>
      dsimp only
      split_ifs <;> simp

theorem find?_death_noteEntry (p : Person) :
    (noteEntry p).find? (fun kv => kv.1 = "DEAT") = none := by
  unfold noteEntry
  cases (if optStrTruthy p.note then p.note else p.addition) with
  | none => rfl
  | some s =>
      dsimp only
      split_ifs <;> simp

theorem lookupTag_indiRecord_death (p : Person) (pid : Int)
    (iptr fptr : List (Int × String)) (cop : List (Int × List Int)) :
    lookupTag (indiRecord p pid iptr fptr cop) "DEAT"
      = ((deathEntry p).find? (fun kv => kv.1 = "DEAT")).map (fun kv => kv.2) := by
  unfold lookupTag indiRecord
  dsimp only
  rw [List.find?_append, List.find?_append, List.find?_append]
  simp [find?_death_birthEntry, find?_death_noteEntry, Option.or_none, Option.none_or]

/-- C8: the individual record built by `to_json`'s loop carries a `DEAT`
entry exactly when the death marker is non-zero and a date is renderable
from the death components or the marker equals 128; and for a person with
marker 128 and all death date components absent, the entry is the bare
known-flag string `"Y"` with no date sub-entry. -/
theorem C8_death_block (p : Person) (pid : Int) (iptr fptr : List (Int × String))
    (cop : List (Int × List Int)) :
    ((lookupTag (indiRecord p pid iptr fptr cop) "DEAT").isSome ↔
      (p.death_event ≠ 0 ∧
        ((fmt_ged_date p.death_year p.death_month p.death_day).isSome ∨
          p.death_event = 128))) ∧
    (p.death_event = 128 → p.death_year = none → p.death_month = none →
      p.death_day = none →
      lookupTag (indiRecord p pid iptr fptr cop) "DEAT" = some (JVal.str "Y")) := by
  constructor
  · rw [lookupTag_indiRecord_death]
    unfold deathEntry
    cases hfmt : fmt_ged_date p.death_year p.death_month p.death_day with
    | some s =>
        have hs : ¬ s = "" := fmt_ged_date_ne_empty hfmt
        dsimp only
        split_ifs with hcond
        · simp [hcond.1]
        · have : ¬ p.death_event ≠ 0 := by
            intro ha
            exact hcond ⟨ha, Or.inl hs⟩
          simp [this]
    | none =>
        dsimp only
        split_ifs with hcond
        · simp [hcond.1, hcond.2]
        · constructor
          · intro hfalse
            simp at hfalse
          · rintro ⟨h1, h2 | h2⟩
            · simp at h2
            · exact absurd ⟨h1, h2⟩ hcond
  · intro h128 hy hm hd
    rw [lookupTag_indiRecord_death]
    unfold deathEntry
    rw [hy, hm, hd]
    have hfmt : fmt_ged_date none none none = (none : Option String) := rfl
    rw [hfmt]
    dsimp only
    rw [if_pos ⟨by omega, h128⟩]
    rfl

/-- C8 witness: a concrete person with death marker 128 and no date
components yields the bare `"Y"` death entry. -/
theorem C8_death_block_witness :
    lookupTag (indiRecord samplePersonDead 3 [] [] []) "DEAT" = some (JVal.str "Y") :=
  (C8_death_block samplePersonDead 3 [] [] []).2 rfl rfl rfl rfl

/-! ## C7 — the pointer-definition patch of the linearizer -/

theorem patchPdef_length {lines : List String} {v : String} {ls : List String}
    (h : patchPdef lines v = some ls) : ls.length = lines.length := by
  unfold patchPdef at h
  cases hl : lines.getLast? with
  | none => rw [hl] at h; exact absurd h (by simp)
  | some last =>
      rw [hl] at h
      dsimp only at h
      cases hsp : splitFirstSpace last with
      | none => rw [hsp] at h; exact absurd h (by simp)
      | some ab =>
          obtain ⟨a, b⟩ := ab
          rw [hsp] at h
          dsimp only at h
          have hne : lines ≠ [] := by
            intro he; subst he; simp at hl
          have hpos : 0 < lines.length := List.length_pos.mpr hne
          have hls := (Option.some.inj h).symm
          subst hls
          simp only [List.length_append, List.length_dropLast, List.length_cons,
            List.length_nil]
          omega

theorem patchPref_length {lines : List String} {v : String} {ls : List String}
    (h : patchPref lines v = some ls) : ls.length = lines.length := by
  unfold patchPref at h
  cases hl : lines.getLast? with
  | none => rw [hl] at h; exact absurd h (by simp)
  | some last =>
      rw [hl] at h
      dsimp only at h
      cases hsp : splitFirstSpace last with
      | none => rw [hsp] at h; exact absurd h (by simp)
      | some ab =>
          obtain ⟨a, b⟩ := ab
          rw [hsp] at h
          dsimp only at h
          have hne : lines ≠ [] := by
            intro he; subst he; simp at hl
          have hpos : 0 < lines.length := List.length_pos.mpr hne
          have hls := (Option.some.inj h).symm
          subst hls
          simp only [List.length_append, List.length_dropLast, List.length_cons,
            List.length_nil]
          omega

theorem patchPdef_append (base tail : List String) (v : String) (htail : tail ≠ []) :
    patchPdef (base ++ tail) v = (patchPdef tail v).map (fun t => base ++ t) := by
  unfold patchPdef
  rw [List.getLast?_append_of_ne_nil base htail]
  cases hl : tail.getLast? with
  | none => rfl
  | some last =>
      dsimp only
      cases hsp : splitFirstSpace last with
      | none => rfl
      | some ab =>
          obtain ⟨a, b⟩ := ab
          dsimp only
          rw [List.dropLast_append_of_ne_nil base htail, List.append_assoc]
          rfl

theorem patchPref_append (base tail : List String) (v : String) (htail : tail ≠ []) :
    patchPref (base ++ tail) v = (patchPref tail v).map (fun t => base ++ t) := by
  unfold patchPref
  rw [List.getLast?_append_of_ne_nil base htail]
  cases hl : tail.getLast? with
  | none => rfl
  | some last =>
      dsimp only
      cases hsp : splitFirstSpace last with
      | none => rfl
      | some ab =>
          obtain ⟨a, b⟩ := ab
          dsimp only
          rw [List.dropLast_append_of_ne_nil base htail, List.append_assoc]
          rfl

mutual

theorem walkValue_length : ∀ (v : JVal) (tag : String) (lvl : Nat) (lines r : List String),
    walkValue v tag lvl lines = some r → lines.length ≤ r.length
  | .obj fs, tag, lvl, lines, r => by
      intro h
      have h' : walkFields fs (lvl + 1) (lines ++ [lineOf lvl tag]) = some r := h
      have := walkFields_length fs (lvl + 1) (lines ++ [lineOf lvl tag]) r h'
      simp only [List.length_append, List.length_cons, List.length_nil] at this
      omega
  | .list xs, tag, lvl, lines, r => by
      intro h
      exact walkItems_length xs tag lvl lines r h
  | .str s, tag, lvl, lines, r => by
      intro h
      have hr := (Option.some.inj h).symm
      subst hr
      simp

theorem walkItem_length : ∀ (v : JVal) (tag : String) (lvl : Nat) (lines r : List String),
    walkItem v tag lvl lines = some r → lines.length ≤ r.length
  | .obj fs, tag, lvl, lines, r => by
      intro h
      have h' : walkFields fs (lvl + 1) (lines ++ [lineOf lvl tag]) = some r := h
      have := walkFields_length fs (lvl + 1) (lines ++ [lineOf lvl tag]) r h'
      simp only [List.length_append, List.length_cons, List.length_nil] at this
      omega
  | .list xs, tag, lvl, lines, r => by
      intro h
      have hr := (Option.some.inj h).symm
      subst hr
      simp
  | .str s, tag, lvl, lines, r => by
      intro h
      have hr := (Option.some.inj h).symm
      subst hr
      simp

theorem walkFields_length :
    ∀ (fs : List (String × JVal)) (lvl : Nat) (lines r : List String),
      walkFields fs lvl lines = some r → lines.length ≤ r.length
  | [], lvl, lines, r => by
      intro h
      have hr := (Option.some.inj h).symm
      subst hr
      exact Nat.le_refl _
  | (tag, value) :: rest, lvl, lines, r => by
      intro h
      simp only [walkFields] at h
      split at h
      · cases hp : patchPdef lines (pyStrJ value) with
        | none => rw [hp] at h; exact absurd h (by simp)
        | some ls =>
            rw [hp] at h
            dsimp only at h
            have hlen := patchPdef_length hp
            have := walkFields_length rest lvl ls r h
            omega
      · split at h
        · cases hp : patchPref lines (pyStrJ value) with
          | none => rw [hp] at h; exact absurd h (by simp)
          | some ls =>
              rw [hp] at h
              dsimp only at h
              have hlen := patchPref_length hp
              have := walkFields_length rest lvl ls r h
              omega
        · cases hv : walkValue value tag lvl lines with
          | none => rw [hv] at h; exact absurd h (by simp)
          | some ls =>
              rw [hv] at h
              dsimp only at h
              have h1 := walkValue_length value tag lvl lines ls hv
              have h2 := walkFields_length rest lvl ls r h
              omega

theorem walkItems_length :
    ∀ (xs : List JVal) (tag : String) (lvl : Nat) (lines r : List String),
      walkItems xs tag lvl lines = some r → lines.length ≤ r.length
  | [], tag, lvl, lines, r => by
      intro h
      have hr := (Option.some.inj h).symm
      subst hr
      exact Nat.le_refl _
  | item :: more, tag, lvl, lines, r => by
      intro h
      simp only [walkItems] at h
      cases hv : walkItem item tag lvl lines with
      | none => rw [hv] at h; exact absurd h (by simp)
      | some ls =>
          rw [hv] at h
          dsimp only at h
          have h1 := walkItem_length item tag lvl lines ls hv
          have h2 := walkItems_length more tag lvl ls r h
          omega

end

mutual

theorem walkValue_frame :
    ∀ (v : JVal) (tag : String) (lvl : Nat) (base tail : List String), tail ≠ [] →
      walkValue v tag lvl (base ++ tail)
        = (walkValue v tag lvl tail).map (fun t => base ++ t)
  | .obj fs, tag, lvl, base, tail, _ht => by
      have h1 : walkValue (.obj fs) tag lvl (base ++ tail)
          = walkFields fs (lvl + 1) ((base ++ tail) ++ [lineOf lvl tag]) := rfl
      have h2 : walkValue (.obj fs) tag lvl tail
          = walkFields fs (lvl + 1) (tail ++ [lineOf lvl tag]) := rfl
      rw [h1, h2, List.append_assoc]
      exact walkFields_frame fs (lvl + 1) base (tail ++ [lineOf lvl tag]) (by simp)
  | .list xs, tag, lvl, base, tail, ht => walkItems_frame xs tag lvl base tail ht
  | .str s, tag, lvl, base, tail, _ht => by
      have h1 : walkValue (.str s) tag lvl (base ++ tail)
          = some ((base ++ tail) ++ [lineOf lvl tag ++ " " ++ s]) := rfl
      have h2 : walkValue (.str s) tag lvl tail
          = some (tail ++ [lineOf lvl tag ++ " " ++ s]) := rfl
      rw [h1, h2, List.append_assoc]
      rfl

theorem walkItem_frame :
    ∀ (v : JVal) (tag : String) (lvl : Nat) (base tail : List String), tail ≠ [] →
      walkItem v tag lvl (base ++ tail)
        = (walkItem v tag lvl tail).map (fun t => base ++ t)
  | .obj fs, tag, lvl, base, tail, _ht => by
      have h1 : walkItem (.obj fs) tag lvl (base ++ tail)
          = walkFields fs (lvl + 1) ((base ++ tail) ++ [lineOf lvl tag]) := rfl
      have h2 : walkItem (.obj fs) tag lvl tail
          = walkFields fs (lvl + 1) (tail ++ [lineOf lvl tag]) := rfl
      rw [h1, h2, List.append_assoc]
      exact walkFields_frame fs (lvl + 1) base (tail ++ [lineOf lvl tag]) (by simp)
  | .list xs, tag, lvl, base, tail, _ht => by
      have h1 : walkItem (.list xs) tag lvl (base ++ tail)
          = some ((base ++ tail) ++ [lineOf lvl tag ++ " " ++ pyStrJ (.list xs)]) := rfl
      have h2 : walkItem (.list xs) tag lvl tail
          = some (tail ++ [lineOf lvl tag ++ " " ++ pyStrJ (.list xs)]) := rfl
      rw [h1, h2, List.append_assoc]
      rfl
  | .str s, tag, lvl, base, tail, _ht => by
      have h1 : walkItem (.str s) tag lvl (base ++ tail)
          = some ((base ++ tail) ++ [lineOf lvl tag ++ " " ++ pyStrJ (.str s)]) := rfl
      have h2 : walkItem (.str s) tag lvl tail
          = some (tail ++ [lineOf lvl tag ++ " " ++ pyStrJ (.str s)]) := rfl
      rw [h1, h2, List.append_assoc]
      rfl

theorem walkFields_frame :
    ∀ (fs : List (String × JVal)) (lvl : Nat) (base tail : List String), tail ≠ [] →
      walkFields fs lvl (base ++ tail)
        = (walkFields fs lvl tail).map (fun t => base ++ t)
  | [], lvl, base, tail, _ht => rfl
  | (tag, value) :: rest, lvl, base, tail, ht => by
      by_cases h1 : tag = "_PDEF"
      · simp only [walkFields, if_pos h1]
        rw [patchPdef_append base tail _ ht]
        cases hp : patchPdef tail (pyStrJ value) with
        | none => rfl
        | some ls =>
            dsimp only
            have hlsne : ls ≠ [] := by
              have hl := patchPdef_length hp
              intro he
              subst he
              simp only [List.length_nil] at hl
              exact ht (List.length_eq_zero.mp hl.symm)
            exact walkFields_frame rest lvl base ls hlsne
      · by_cases h2 : tag = "_PREF" ∨ tag = "_NAME"
        · simp only [walkFields, if_neg h1, if_pos h2]
          rw [patchPref_append base tail _ ht]
          cases hp : patchPref tail (pyStrJ value) with
          | none => rfl
          | some ls =>
              dsimp only
              have hlsne : ls ≠ [] := by
                have hl := patchPref_length hp
                intro he
                subst he
                simp only [List.length_nil] at hl
                exact ht (List.length_eq_zero.mp hl.symm)
              exact walkFields_frame rest lvl base ls hlsne
        · simp only [walkFields, if_neg h1, if_neg h2]
          rw [walkValue_frame value tag lvl base tail ht]
          cases hv : walkValue value tag lvl tail with
          | none => rfl
          | some ls =>
              dsimp only
              have hlsne : ls ≠ [] := by
                have hl := walkValue_length value tag lvl tail ls hv
                intro he
                subst he
                simp only [List.length_nil, Nat.le_zero] at hl
                exact ht (List.length_eq_zero.mp hl)
              exact walkFields_frame rest lvl base ls hlsne

theorem walkItems_frame :
    ∀ (xs : List JVal) (tag : String) (lvl : Nat) (base tail : List String), tail ≠ [] →
      walkItems xs tag lvl (base ++ tail)
        = (walkItems xs tag lvl tail).map (fun t => base ++ t)
  | [], tag, lvl, base, tail, _ht => rfl
  | item :: more, tag, lvl, base, tail, ht => by
      simp only [walkItems]
      rw [walkItem_frame item tag lvl base tail ht]
      cases hv : walkItem item tag lvl tail with
      | none => rfl
      | some ls =>
          dsimp only
          have hlsne : ls ≠ [] := by
            have hl := walkItem_length item tag lvl tail ls hv
            intro he
            subst he
            simp only [List.length_nil, Nat.le_zero] at hl
            exact ht (List.length_eq_zero.mp hl)
          exact walkItems_frame more tag lvl base ls hlsne

end

theorem walkItem_ext (item : JVal) (tag : String) (lvl : Nat) (lines ls : List String)
    (h : walkItem item tag lvl lines = some ls) : ∃ e, ls = lines ++ e := by
  cases item with
  | obj fs =>
      have h' : walkFields fs (lvl + 1) (lines ++ [lineOf lvl tag]) = some ls := h
      rw [walkFields_frame fs (lvl + 1) lines [lineOf lvl tag] (by simp)] at h'
      cases hw : walkFields fs (lvl + 1) [lineOf lvl tag] with
      | none => rw [hw] at h'; exact absurd h' (by simp)
      | some t => rw [hw] at h'; exact ⟨t, (Option.some.inj h').symm⟩
  | list xs => exact ⟨[lineOf lvl tag ++ " " ++ pyStrJ (.list xs)], (Option.some.inj h).symm⟩
  | str s => exact ⟨[lineOf lvl tag ++ " " ++ pyStrJ (.str s)], (Option.some.inj h).symm⟩

theorem walkItems_ext :
    ∀ (xs : List JVal) (tag : String) (lvl : Nat) (lines r : List String),
      walkItems xs tag lvl lines = some r → ∃ ext, r = lines ++ ext := by
  intro xs
  induction xs with
  | nil =>
      intro tag lvl lines r h
      exact ⟨[], by simpa using (Option.some.inj h).symm⟩
  | cons item more ih =>
      intro tag lvl lines r h
      simp only [walkItems] at h
      cases hv : walkItem item tag lvl lines with
      | none => rw [hv] at h; exact absurd h (by simp)
      | some ls =>
          rw [hv] at h
          dsimp only at h
          obtain ⟨e1, rfl⟩ := walkItem_ext item tag lvl lines ls hv
          obtain ⟨e2, rfl⟩ := ih tag lvl (lines ++ e1) r h
          exact ⟨e1 ++ e2, by rw [List.append_assoc]⟩

theorem walkValue_ext (v : JVal) (tag : String) (lvl : Nat) (lines ls : List String)
    (h : walkValue v tag lvl lines = some ls) : ∃ e, ls = lines ++ e := by
  cases v with
  | obj fs =>
      have h' : walkFields fs (lvl + 1) (lines ++ [lineOf lvl tag]) = some ls := h
      rw [walkFields_frame fs (lvl + 1) lines [lineOf lvl tag] (by simp)] at h'
      cases hw : walkFields fs (lvl + 1) [lineOf lvl tag] with
      | none => rw [hw] at h'; exact absurd h' (by simp)
      | some t => rw [hw] at h'; exact ⟨t, (Option.some.inj h').symm⟩
  | list xs => exact walkItems_ext xs tag lvl lines ls h
  | str s => exact ⟨[lineOf lvl tag ++ " " ++ s], (Option.some.inj h).symm⟩

theorem walkFields_ext :
    ∀ (fs : List (String × JVal)) (lvl : Nat) (lines r : List String),
      (∀ kv ∈ fs, isPseudoTag kv.1 = false) →
      walkFields fs lvl lines = some r → ∃ ext, r = lines ++ ext := by
  intro fs
  induction fs with
  | nil =>
      intro lvl lines r _ h
      exact ⟨[], by simpa using (Option.some.inj h).symm⟩
  | cons kv rest ih =>
      intro lvl lines r hps h
      obtain ⟨tag, value⟩ := kv
      have htag := hps (tag, value) (List.mem_cons_self _ _)
      simp only [isPseudoTag, Bool.or_eq_false_iff, decide_eq_false_iff_not] at htag
      simp only [walkFields, if_neg htag.1.1, if_neg (not_or.mpr ⟨htag.1.2, htag.2⟩)] at h
      cases hv : walkValue value tag lvl lines with
      | none => rw [hv] at h; exact absurd h (by simp)
      | some ls =>
          rw [hv] at h
          dsimp only at h
          obtain ⟨e1, rfl⟩ := walkValue_ext value tag lvl lines ls hv
          obtain ⟨e2, rfl⟩ := ih lvl (lines ++ e1) r
            (fun kv2 hkv2 => hps kv2 (List.mem_cons_of_mem _ hkv2)) h
          exact ⟨e1 ++ e2, by rw [List.append_assoc]⟩

/-- C7: for a document whose individual entry begins with the
pointer-definition pseudo-tag `"_PDEF"` valued `"@I0000@"`, followed by
ordinary (non-pseudo-tag) fields, the linearizer emits `"0 @I0000@ INDI"`
as the record's first line: the pseudo-tag contributes no line of its own
and instead splices its value between the level and the tag of the
previously emitted `"0 INDI"` line. -/
theorem walkFields_singleton (tag : String) (v : JVal) (lvl : Nat) (lines : List String)
    (h1 : ¬ tag = "_PDEF") (h2 : ¬ (tag = "_PREF" ∨ tag = "_NAME")) :
    walkFields [(tag, v)] lvl lines = walkValue v tag lvl lines := by
  simp only [walkFields, if_neg h1, if_neg h2]
  cases walkValue v tag lvl lines <;> rfl

theorem walkItems_singleton (item : JVal) (tag : String) (lvl : Nat) (lines : List String) :
    walkItems [item] tag lvl lines = walkItem item tag lvl lines := by
  simp only [walkItems]
  cases walkItem item tag lvl lines <;> rfl

/-- C7: for a document whose individual entry begins with the
pointer-definition pseudo-tag `"_PDEF"` valued `"@I0000@"`, followed by
ordinary (non-pseudo-tag) fields, the linearizer emits `"0 @I0000@ INDI"`
as the record's first line: the pseudo-tag contributes no line of its own
and instead splices its value between the level and the tag of the
previously emitted `"0 INDI"` line. -/
theorem C7_pointer_definition_patch (rest : List (String × JVal)) (out : List String)
    (hps : ∀ kv ∈ rest, isPseudoTag kv.1 = false)
    (h : gedcomLines (JVal.obj [("INDI",
        JVal.list [JVal.obj (("_PDEF", JVal.str "@I0000@") :: rest)])]) = some out) :
    ∃ ext, out = "0 @I0000@ INDI" :: ext := by
  have e0 : gedcomLines (JVal.obj [("INDI",
      JVal.list [JVal.obj (("_PDEF", JVal.str "@I0000@") :: rest)])])
      = walkFields [("INDI", JVal.list [JVal.obj (("_PDEF", JVal.str "@I0000@") :: rest)])]
          0 [] := rfl
  rw [e0, walkFields_singleton _ _ _ _ (by decide) (by decide)] at h
  have e1 : walkValue (JVal.list [JVal.obj (("_PDEF", JVal.str "@I0000@") :: rest)])
        "INDI" 0 []
      = walkItems [JVal.obj (("_PDEF", JVal.str "@I0000@") :: rest)] "INDI" 0 [] := rfl
  rw [e1, walkItems_singleton] at h
  have e2 : walkItem (JVal.obj (("_PDEF", JVal.str "@I0000@") :: rest)) "INDI" 0 []
      = walkFields rest 1 ["0 @I0000@ INDI"] := rfl
  rw [e2] at h
  obtain ⟨ext, rfl⟩ := walkFields_ext rest 1 ["0 @I0000@ INDI"] out hps h
  exact ⟨ext, rfl⟩

/-- C7 witness: a concrete individual record with the pseudo-tag first and
one ordinary field linearizes with `"0 @I0000@ INDI"` as its first line. -/
theorem C7_pointer_definition_patch_witness :
    ∃ ext, ["0 @I0000@ INDI", "1 SEX M"] = "0 @I0000@ INDI" :: ext :=
  C7_pointer_definition_patch [("SEX", JVal.str "M")] ["0 @I0000@ INDI", "1 SEX M"]
    (by decide) (by decide)
